import Mathlib

/-!
# Patient-management API (`server.js`)

A shallow embedding of the Express service in `server.js`: the request handlers for
`/api/patients`, the start-up sequence (configuration check, credential retrieval, pool
and schema initialisation, `listen`) and the `DB_HOST` parsing, together with the
properties the specification states about them.

JavaScript values are embedded as an inductive type, the handlers as programs in a small
state-and-exception monad whose state records the table, the responses written to `res`
and the statements handed to `dbPool.query`.
-/

namespace PtMgmt

/-! ## JavaScript values -/

/-- A JavaScript number: `NaN`, an infinity, or a finite value. Every finite double is a
rational number; the sign of zero is not recorded. -/
inductive JsNumber where
  | nan
  | infinity (negative : Bool)
  | finite (q : ℚ)

/-- A JavaScript value as it can appear in parsed JSON, plus `undefined` (the result of
reading a property that is not there). -/
inductive JsVal where
  | undefined
  | null
  | bool (b : Bool)
  | num (x : JsNumber)
  | str (s : String)
  | arr (items : List JsVal)
  | obj (fields : List (String × JsVal))

/-- Truthiness of a number: `!x` is true exactly for `NaN` and zero. -/
def JsNumber.truthy : JsNumber → Bool
  | .nan => false
  | .infinity _ => true
  | .finite q => decide (q ≠ 0)

/-- Truthiness of a value, the test behind `!name`: `undefined`, `null`, `false`, zero,
`NaN` and the empty string are falsy, everything else (arrays and objects included) is
truthy. -/
def JsVal.truthy : JsVal → Bool
  | .undefined => false
  | .null => false
  | .bool b => b
  | .num x => x.truthy
  | .str s => decide (s ≠ "")
  | .arr _ => true
  | .obj _ => true

/-- Own-property lookup in an object's property list; `undefined` when the key is absent. -/
def lookupProp (key : String) : List (String × JsVal) → JsVal
  | [] => .undefined
  | (k, v) :: rest => if k = key then v else lookupProp key rest

/-- Errors that JavaScript code can throw or a promise can reject with. -/
inductive JsError where
  | typeError
  | syntaxError
  | error (message : String)
  | rejected (source : String)
deriving DecidableEq

/-- Reading `v.key` for one of the keys the program reads (`username`, `password`, `name`,
`patientNumber`): a `TypeError` on `undefined` and `null`, the own property on an object,
`undefined` on every other value (none of these keys is on a built-in prototype). -/
def JsVal.getProp (v : JsVal) (key : String) : Except JsError JsVal :=
  match v with
  | .undefined => .error .typeError
  | .null => .error .typeError
  | .obj fields => .ok (lookupProp key fields)
  | _ => .ok .undefined

/-- A parsed request body, what `express.json()` (line 12) stores in `req.body` when it
parses a request: a JSON object or a JSON array. A handler finds in `req.body` an
`Option Body`: `some body` after a parse, `none` for `undefined` when nothing was parsed. -/
inductive Body where
  | object (fields : List (String × JsVal))
  | array (items : List JsVal)

/-- Destructuring one property `key` out of a parsed body. -/
def Body.prop (b : Body) (key : String) : JsVal :=
  match b with
  | .object fields => lookupProp key fields
  | .array _ => .undefined

/-! ## The `patients` table and the four statements -/

/-- One row of `patients`: `id` is the `INT AUTO_INCREMENT PRIMARY KEY`, `name` and
`patient_number` are the texts in the `VARCHAR ... NOT NULL` columns (lines 89-93). -/
structure Row where
  id : Nat
  name : String
  patient_number : String

/-- Modelled from the spec: the relational store behind `dbPool`, as far as the four
statements of `server.js` use it. `rows` is the content of `patients`, `autoIncrement` is
the table's counter: the id the next `INSERT` receives. -/
structure Table where
  rows : List Row
  autoIncrement : Nat

/-- The table right after `CREATE TABLE IF NOT EXISTS patients` on a fresh database. -/
def Table.empty : Table := { rows := [], autoIncrement := 1 }

/-- The statements the handlers pass to `dbPool.query`, with their bound parameters. -/
inductive Query where
  | selectAll
  | insert (name patientNumber : JsVal)
  | update (name patientNumber : JsVal) (id : String)
  | delete (id : String)

/-- What `dbPool.query` resolves with (first component): the rows of a `SELECT`, or the
header of a data-changing statement. Fields a statement does not set keep their default. -/
structure QueryResult where
  rows : List Row := []
  insertId : Nat := 0
  affectedRows : Nat := 0

/-- Rows ordered by the clause `ORDER BY id ASC`. -/
def orderById (rows : List Row) : List Row :=
  rows.insertionSort (fun a b => a.id ≤ b.id)

/-! ### How `query()` writes a bound value into the statement

`dbPool.query(sql, params)` replaces each `?` by the escaped text of its parameter before
the statement reaches the store. What that text means to the store is one of three
things for a `VARCHAR ... NOT NULL` column. -/

/-- One SQL expression in the place of a `?`, as the store evaluates it for a text
column: `invalid` when the statement cannot be run with it, the `NULL` value, or a
text. -/
inductive SqlExpr where
  | invalid
  | null
  | text (s : String)

/-- The digits after the decimal point of `num / den`, for `num < den`. -/
def fractionDigits : Nat → Nat → Nat → List Char
  | 0, _, _ => []
  | fuel + 1, num, den =>
    if num = 0 then []
    else Nat.digitChar (num * 10 / den) :: fractionDigits fuel (num * 10 % den) den

/-- The plain decimal writing of a number, the text the driver puts for a number in the
range where JavaScript prints no exponent. -/
def decimalText (q : ℚ) : String :=
  let whole := q.num.natAbs / q.den
  let rest := q.num.natAbs % q.den
  let sign := if q < 0 then "-" else ""
  let fraction := fractionDigits q.den rest q.den
  sign ++ toString whole ++ (if fraction = [] then "" else "." ++ String.mk fraction)

/-- Modelled from the spec: a bound number. The driver writes its decimal text, a numeric
literal that a text column keeps as that text; `NaN` and `Infinity` are written as bare
words, which the store reads as references to columns the table lacks. -/
def numberExpr : JsNumber → SqlExpr
  | .nan => .invalid
  | .infinity _ => .invalid
  | .finite q => .text (decimalText q)

/-- A parenthesised list of expressions: `(x)` is `x`; the empty `()` and a row of several
values are not a value for one column. -/
def tupleExpr : List SqlExpr → SqlExpr
  | [e] => e
  | _ => .invalid

mutual

/-- Modelled from the spec: the driver's escaping of one element of an array. `null` is
written `NULL`, `true` and `false` as the literals a text column keeps as `1` and `0`, a
string as a quoted literal, an inner array as a parenthesised list, and an object as the
quoted text of its `toString()`. -/
def itemExpr : JsVal → SqlExpr
  | .undefined => .null
  | .null => .null
  | .bool b => .text (if b then "1" else "0")
  | .num x => numberExpr x
  | .str s => .text s
  | .arr items => tupleExpr (listExprs items)
  | .obj _ => .text "[object Object]"

/-- Modelled from the spec: the driver's escaping of an array, the escaped elements
separated by commas. -/
def listExprs : List JsVal → List SqlExpr
  | [] => []
  | v :: vs => itemExpr v :: listExprs vs

end

/-- Modelled from the spec: the expressions the driver writes for the parameter bound to
one `?`. A scalar gives one expression; an array gives one per element, so `[""]` gives
the single empty string literal; an object gives one `key = value` comparison per
property, each naming a column of the body's choosing, which the store does not
evaluate. -/
def boundExprs : JsVal → List SqlExpr
  | .arr items => listExprs items
  | .obj fields => fields.map (fun _ => .invalid)
  | v => [itemExpr v]

/-- The value a column placeholder stands for: the one expression written for its
parameter; the statement is invalid when none or several were written. -/
def boundColumn (v : JsVal) : SqlExpr := tupleExpr (boundExprs v)

section Store

/- The store's comparison `id = ?` of the integer column with the bound path text. It is
a parameter: every result below holds for whatever comparison the store applies. -/
variable (idEq : String → Nat → Bool)

/-- The row an `UPDATE ... WHERE id = ?` leaves in place of `r`. -/
def updateRow (name patientNumber : String) (id : String) (r : Row) : Row :=
  if idEq id r.id then { r with name := name, patient_number := patientNumber } else r

/-- Modelled from the spec: the effect of a statement on the table, `none` when the store
rejects it. An `INSERT` needs a text for both columns; an `UPDATE` whose placeholders are
valid writes the texts into the matching rows and is rejected when it would write `NULL`
into one; `affectedRows` counts the rows matched by the `WHERE` clause. -/
def Table.exec (t : Table) : Query → Option (QueryResult × Table)
  | .selectAll => some ({ rows := orderById t.rows }, t)
  | .insert name patientNumber =>
      match boundColumn name, boundColumn patientNumber with
      | .text n, .text p =>
          some ({ insertId := t.autoIncrement, affectedRows := 1 },
                { rows := t.rows ++ [{ id := t.autoIncrement, name := n,
                                       patient_number := p }],
                  autoIncrement := t.autoIncrement + 1 })
      | _, _ => none
  | .update name patientNumber id =>
      match boundColumn name, boundColumn patientNumber with
      | .invalid, _ => none
      | _, .invalid => none
      | .text n, .text p =>
          some ({ affectedRows := (t.rows.filter (fun r => idEq id r.id)).length },
                { t with rows := t.rows.map (updateRow idEq n p id) })
      | _, _ =>
          if (t.rows.filter (fun r => idEq id r.id)).length = 0 then
            some ({ affectedRows := 0 }, t)
          else none
  | .delete id =>
      some ({ affectedRows := (t.rows.filter (fun r => idEq id r.id)).length },
            { t with rows := t.rows.filter (fun r => !idEq id r.id) })

/-! ## Handler effects -/

/-- An HTTP response written through `res`: the status and the JSON body, `none` for
`res.send()` without a body. -/
structure Response where
  status : Nat
  body : Option JsVal

/-- What a handler acts on: the table, whether the store executes the next statement or
rejects it, the responses written so far, and the statements issued so far. -/
structure World where
  table : Table
  storeUp : Bool
  sent : List Response
  issued : List Query

/-- An effectful computation over a state `σ`: it may throw, and it changes the state
either way. -/
def Eff (σ α : Type) : Type := σ → Except JsError α × σ

/-- Sequencing of computations: a thrown error skips the rest. -/
def Eff.bind {σ α β : Type} (m : Eff σ α) (f : α → Eff σ β) : Eff σ β := fun w =>
  match m w with
  | (.ok a, w1) => f a w1
  | (.error e, w1) => (.error e, w1)

instance {σ : Type} : Monad (Eff σ) where
  pure a := fun w => (.ok a, w)
  bind := Eff.bind

/-- The statement `throw err`. -/
def throwEff {σ α : Type} (err : JsError) : Eff σ α := fun w => (.error err, w)

/-- The statement `try body catch (err) handler`. -/
def tryCatchEff {σ α : Type} (body : Eff σ α) (handler : JsError → Eff σ α) : Eff σ α :=
  fun w =>
    match body w with
    | (.ok a, w1) => (.ok a, w1)
    | (.error e, w1) => handler e w1

/-- The statement `try body finally cleanup`: the cleanup runs on both exits and the
outcome of the body stands. -/
def tryFinallyEff {σ α : Type} (body : Eff σ α) (cleanup : Eff σ Unit) : Eff σ α :=
  fun w =>
    match body w with
    | (outcome, w1) =>
      match cleanup w1 with
      | (.ok _, w2) => (outcome, w2)
      | (.error e, w2) => (.error e, w2)

/-- A route handler's computation. -/
abbrev Handler (α : Type) : Type := Eff World α

/-- The outcome of a statement in world `w`: what the store answers when it is up and
accepts the statement, `none` otherwise. -/
def World.attempt (w : World) (q : Query) : Option (QueryResult × Table) :=
  if w.storeUp then w.table.exec idEq q else none

/-- The call `await dbPool.query(sql, params)`: the statement is issued; the store either
executes it or the promise rejects and the table stays as it was. -/
def dbPool_query (q : Query) : Handler QueryResult := fun w =>
  match w.attempt idEq q with
  | some (result, t) => (.ok result, { w with table := t, issued := w.issued ++ [q] })
  | none => (.error (.rejected "dbPool.query"), { w with issued := w.issued ++ [q] })

/-- The call `res.status(status).json(body)`. -/
def res_json (status : Nat) (body : JsVal) : Handler Unit := fun w =>
  (.ok (), { w with sent := w.sent ++ [{ status := status, body := some body }] })

/-- The call `res.status(status).send()`. -/
def res_send (status : Nat) : Handler Unit := fun w =>
  (.ok (), { w with sent := w.sent ++ [{ status := status, body := none }] })

/-- The body of every error response: an object with the single field `error`. -/
def errorBody (message : String) : JsVal := .obj [("error", .str message)]

/-- A natural number as a JavaScript number value. -/
def natVal (n : Nat) : JsVal := .num (.finite (n : ℚ))

/-- A row as the driver returns it: an object with `id`, `name`, `patient_number`. -/
def Row.toJs (r : Row) : JsVal :=
  .obj [("id", natVal r.id), ("name", .str r.name),
        ("patient_number", .str r.patient_number)]

/-! ## The route handlers (lines 110-181) -/

/-- The handler `app.get('/api/patients', ...)`. -/
def getPatients : Handler Unit :=
  tryCatchEff
    (do
      let result ← dbPool_query idEq .selectAll
      res_json 200 (.obj [("patients", .arr (result.rows.map Row.toJs))]))
    (fun _ => res_json 500 (errorBody "Failed to fetch patients."))

/-- The handler `app.post('/api/patients', ...)` once `req.body` has been destructured
(line 122), `body` being the parsed body. -/
def postPatients (body : Body) : Handler Unit :=
  let name := body.prop "name"
  let patientNumber := body.prop "patientNumber"
  if !name.truthy || !patientNumber.truthy then
    res_json 400 (errorBody "Missing name or patientNumber.")
  else
    tryCatchEff
      (do
        let result ← dbPool_query idEq (.insert name patientNumber)
        res_json 201 (.obj [("id", natVal result.insertId), ("name", name),
                            ("patient_number", patientNumber)]))
      (fun _ => res_json 500 (errorBody "Failed to add patient."))

/-- The handler `app.put('/api/patients/:id', ...)` once `req.body` has been destructured
(line 142), `body` being the parsed body. -/
def putPatient (id : String) (body : Body) : Handler Unit :=
  let name := body.prop "name"
  let patientNumber := body.prop "patientNumber"
  if !name.truthy || !patientNumber.truthy then
    res_json 400 (errorBody "Missing name or patientNumber.")
  else
    tryCatchEff
      (do
        let result ← dbPool_query idEq (.update name patientNumber id)
        if result.affectedRows = 0 then
          res_json 404 (errorBody "Patient not found.")
        else
          res_json 200 (.obj [("message", .str "Patient updated successfully.")]))
      (fun _ => res_json 500 (errorBody "Failed to update patient."))

/-- The handler `app.delete('/api/patients/:id', ...)`. -/
def deletePatient (id : String) : Handler Unit :=
  tryCatchEff
    (do
      let result ← dbPool_query idEq (.delete id)
      if result.affectedRows = 0 then
        res_json 404 (errorBody "Patient not found.")
      else
        res_send 204)
    (fun _ => res_json 500 (errorBody "Failed to delete patient."))

/-- The destructuring of `name` and `patientNumber` out of `req.body` at lines 122 and
142, which stands before the `try`: with `req.body` undefined it throws a `TypeError`,
otherwise the handler goes on with the parsed body. -/
def withBody (reqBody : Option Body) (handler : Body → Handler Unit) : Handler Unit :=
  match reqBody with
  | some body => handler body
  | none => throwEff .typeError

/-- A request to one of the four `/api/patients` routes, with `req.body` as the handler
finds it. -/
inductive ApiRequest where
  | list
  | create (reqBody : Option Body)
  | update (id : String) (reqBody : Option Body)
  | remove (id : String)

/-- Route dispatch. -/
def serve : ApiRequest → Handler Unit
  | .list => getPatients idEq
  | .create reqBody => withBody reqBody (postPatients idEq)
  | .update id reqBody => withBody reqBody (putPatient idEq id)
  | .remove id => deletePatient idEq id

/-- One request served on table `t`, the store being up or not, from a clean log. -/
def handle (t : Table) (req : ApiRequest) (up : Bool) : Except JsError Unit × World :=
  serve idEq req { table := t, storeUp := up, sent := [], issued := [] }

/-- A sequence of requests served one after the other, each with its own store outcome:
the final table and all the responses the handlers wrote, in order. -/
def run (t : Table) : List (ApiRequest × Bool) → Table × List Response
  | [] => (t, [])
  | (req, up) :: rest =>
      let w := (handle idEq t req up).2
      let (t2, rs) := run w.table rest
      (t2, w.sent ++ rs)

end Store

/-! ## `parseInt` and the `DB_HOST` parsing (lines 66-68) -/

/-- The call `text.split(sep)` for a one-character separator, on the characters of the
text: the pieces between the separators, in order (one piece when there is none). -/
def splitChars (sep : Char) : List Char → List (List Char)
  | [] => [[]]
  | c :: cs =>
    if c = sep then [] :: splitChars sep cs
    else
      match splitChars sep cs with
      | [] => [[c]]
      | piece :: pieces => (c :: piece) :: pieces

/-- White space skipped by `parseInt`: the ECMAScript `WhiteSpace` and `LineTerminator`
code points. -/
def isStrWhiteSpace (c : Char) : Bool :=
  c.toNat ∈ [0x09, 0x0A, 0x0B, 0x0C, 0x0D, 0x20, 0xA0, 0x1680, 0x2000, 0x2001, 0x2002,
    0x2003, 0x2004, 0x2005, 0x2006, 0x2007, 0x2008, 0x2009, 0x200A, 0x2028, 0x2029,
    0x202F, 0x205F, 0x3000, 0xFEFF]

/-- The value of a character as a digit of `parseInt`: `0`-`9`, then letters of either
case from 10 on; `none` for any other character. -/
def digitValue (c : Char) : Option Nat :=
  if '0'.toNat ≤ c.toNat ∧ c.toNat ≤ '9'.toNat then some (c.toNat - '0'.toNat)
  else if 'a'.toNat ≤ c.toNat ∧ c.toNat ≤ 'z'.toNat then some (c.toNat - 'a'.toNat + 10)
  else if 'A'.toNat ≤ c.toNat ∧ c.toNat ≤ 'Z'.toNat then some (c.toNat - 'A'.toNat + 10)
  else none

/-- Whether the character is a digit in the given radix. -/
def isRadixDigit (radix : Nat) (c : Char) : Bool :=
  match digitValue c with
  | some d => decide (d < radix)
  | none => false

/-- The integer denoted by a run of digits in the given radix. -/
def digitsValue (radix : Nat) (digits : List Char) : Nat :=
  digits.foldl (fun acc c => radix * acc + (digitValue c).getD 0) 0

/-- The number of bits by which `n` exceeds the 53 bits of a double's significand: the
least `e` with `n / 2 ^ e < 2 ^ 53`, for `fuel ≥ n`. -/
def excessBits : Nat → Nat → Nat
  | 0, _ => 0
  | fuel + 1, n => if n < 2 ^ 53 then 0 else 1 + excessBits fuel (n / 2)

/-- The Number value of an integer given by sign and magnitude: the magnitude is rounded
once to the nearest double, ties to the even significand, and is infinite from `2 ^ 1024`
on. -/
def toDouble (negative : Bool) (n : Nat) : JsNumber :=
  let e := excessBits n n
  let q := n / 2 ^ e
  let r := n % 2 ^ e
  let m := if 2 ^ e < 2 * r ∨ (2 * r = 2 ^ e ∧ q % 2 = 1) then q + 1 else q
  let v := m * 2 ^ e
  if 2 ^ 1024 ≤ v then .infinity negative
  else .finite (if negative then -(v : ℚ) else (v : ℚ))

/-- The built-in `parseInt(text)` with no radix argument, on the characters of the text:
leading white space is skipped, then an optional sign, then an optional `0x` prefix
selecting radix 16; the longest run of digits is read and `NaN` results when it is
empty. -/
def parseInt (text : List Char) : JsNumber :=
  let s := text.dropWhile isStrWhiteSpace
  let negative := decide (s.head? = some '-')
  let s := if s.head? = some '-' ∨ s.head? = some '+' then s.tail else s
  let hex := decide (s.take 2 = ['0', 'x'] ∨ s.take 2 = ['0', 'X'])
  let radix := if hex then 16 else 10
  let s := if hex then s.drop 2 else s
  let z := s.takeWhile (isRadixDigit radix)
  if z = [] then .nan else toDouble negative (digitsValue radix z)

/-- Lines 67-68: `let [dbHost, dbPort] = DB_HOST.split(':')` followed by
`dbPort = dbPort ? parseInt(dbPort) : 3306`. -/
def parseDbHost (DB_HOST : String) : String × JsNumber :=
  let parts := splitChars ':' DB_HOST.data
  let dbHost := parts.headD []
  let dbPort :=
    match parts.tail.head? with
    | some p => if p ≠ [] then parseInt p else .finite 3306
    | none => .finite 3306
  (String.mk dbHost, dbPort)

/-! ## Start-up (lines 16-103 and 191-204) -/

/-- The process environment after `dotenv` has loaded `.env`: each variable is a string or
unset. -/
structure Env where
  APP_PORT : Option String
  DB_HOST : Option String
  DB_NAME : Option String
  DB_SECRET_ARN : Option String
  AWS_REGION : Option String

/-- Truthiness of an environment variable: set and not the empty string. -/
def envTruthy : Option String → Bool
  | none => false
  | some s => decide (s ≠ "")

/-- The part of the Secrets Manager response the program reads. -/
structure SecretResponse where
  SecretString : Option String

/-- What the outside answers during start-up: the secret store to `send`, the built-in
`JSON.parse` on each text, the pool to `getConnection`, and the store to the
`CREATE TABLE` statement. -/
structure Outside where
  send : Except JsError SecretResponse
  JSON_parse : String → Except JsError JsVal
  getConnection : Bool
  createTable : Bool

/-- The object `getDbCredentials` returns. -/
structure Credentials where
  user : JsVal
  password : JsVal

/-- The options object passed to `mysql.createPool`. -/
structure PoolConfig where
  host : String
  port : JsNumber
  user : JsVal
  password : JsVal
  database : Option String
  waitForConnections : Bool
  connectionLimit : Nat
  queueLimit : Nat

/-- Observable steps of the start-up. -/
inductive Event where
  | sendGetSecretValue (secretId : Option String)
  | createPool (config : PoolConfig)
  | getConnection
  | createTableQuery
  | release
  | listen (port : JsVal)
  | exit (code : Nat)

/-- The state of the starting process: the steps taken so far and whether the local
variable `connection` of `initializeDbPool` holds a connection. -/
structure Process where
  log : List Event
  connection : Bool

/-- A start-up computation. -/
abbrev Boot (α : Type) : Type := Eff Process α

/-- Record one step. -/
def emit (e : Event) : Boot Unit := fun p => (.ok (), { p with log := p.log ++ [e] })

/-- Lift an outcome decided outside into the computation. -/
def liftOutcome {α : Type} : Except JsError α → Boot α
  | .ok a => fun p => (.ok a, p)
  | .error e => fun p => (.error e, p)

/-- The function `getDbCredentials` (lines 39-56). -/
def getDbCredentials (env : Env) (out : Outside) : Boot Credentials :=
  tryCatchEff
    (do
      emit (.sendGetSecretValue env.DB_SECRET_ARN)
      let response ← liftOutcome out.send
      if !envTruthy response.SecretString then
        throwEff (.error "Missing SecretString in Secrets Manager response.")
      else do
        let secret ← liftOutcome (out.JSON_parse (response.SecretString.getD ""))
        let username ← liftOutcome (secret.getProp "username")
        let password ← liftOutcome (secret.getProp "password")
        pure { user := username, password := password })
    (fun err => throwEff err)

/-- The call `await dbPool.getConnection()` assigned to `connection`. -/
def pool_getConnection (out : Outside) : Boot Unit := fun p =>
  if out.getConnection then
    (.ok (), { log := p.log ++ [.getConnection], connection := true })
  else
    (.error (.rejected "dbPool.getConnection"), { p with log := p.log ++ [.getConnection] })

/-- The call `await connection.query(createTableQuery)`. -/
def connection_query (out : Outside) : Boot Unit := fun p =>
  if out.createTable then (.ok (), { p with log := p.log ++ [.createTableQuery] })
  else (.error (.rejected "connection.query"), { p with log := p.log ++ [.createTableQuery] })

/-- The options object of lines 72-81. -/
def poolOptions (env : Env) (dbHost : String) (dbPort : JsNumber) (credentials : Credentials) :
    PoolConfig :=
  { host := dbHost, port := dbPort, user := credentials.user,
    password := credentials.password, database := env.DB_NAME,
    waitForConnections := true, connectionLimit := 10, queueLimit := 0 }

/-- The function `initializeDbPool` (lines 61-103), called with `dbPool` still `null`. -/
def initializeDbPool (env : Env) (out : Outside) : Boot Unit := do
  let credentials ← getDbCredentials env out
  let DB_HOST ← liftOutcome (match env.DB_HOST with
    | some h => .ok h
    | none => .error .typeError)
  let (dbHost, dbPort) := parseDbHost DB_HOST
  emit (.createPool (poolOptions env dbHost dbPort credentials))
  tryFinallyEff
    (tryCatchEff
      (do
        pool_getConnection out
        connection_query out)
      (fun err => throwEff err))
    (fun p => if p.connection then emit .release p else (.ok (), p))

/-- The value `APP_PORT || 5005`. -/
def listenPort (env : Env) : JsVal :=
  if envTruthy env.APP_PORT then .str (env.APP_PORT.getD "") else natVal 5005

/-- The function `startServer` (lines 191-202). -/
def startServer (env : Env) (out : Outside) : Boot Unit :=
  tryCatchEff
    (do
      initializeDbPool env out
      emit (.listen (listenPort env)))
    (fun _ => emit (.exit 1))

/-- The module body: the check of lines 24-28, whose `process.exit(1)` ends the process
on the spot, and otherwise the call `startServer()` of line 204. -/
def serverMain (env : Env) (out : Outside) : Boot Unit :=
  if !envTruthy env.DB_HOST || !envTruthy env.DB_NAME || !envTruthy env.DB_SECRET_ARN
      || !envTruthy env.AWS_REGION then
    emit (.exit 1)
  else
    startServer env out

/-- The steps a start of the process takes, from the first to the last. -/
def bootLog (env : Env) (out : Outside) : List Event :=
  (serverMain env out { log := [], connection := false }).2.log

/-! ## Notions used in the statements -/

/-- A property value that counts as missing: absent, `null`, or the empty string. -/
def isMissing (v : JsVal) : Prop := v = .undefined ∨ v = .null ∨ v = .str ""

/-- The response `res.status(status).json(body)` produces. -/
def jsonResponse (status : Nat) (body : JsVal) : Response :=
  { status := status, body := some body }

/-- The body of the list response for the given rows. -/
def patientsBody (rows : List Row) : JsVal :=
  .obj [("patients", .arr (rows.map Row.toJs))]

/-- The body of the create response. -/
def createdBody (id : Nat) (name patientNumber : JsVal) : JsVal :=
  .obj [("id", natVal id), ("name", name), ("patient_number", patientNumber)]

/-- The validation test of the create and update handlers. -/
def rejects (body : Body) : Bool :=
  !(body.prop "name").truthy || !(body.prop "patientNumber").truthy

/-- The invariant of an auto-increment table: every id in use lies below the counter. -/
def Table.WF (t : Table) : Prop :=
  ∀ r ∈ t.rows, r.id < t.autoIncrement

/-- The integer a decimal numeral denotes. -/
def decimalValue (numeral : List Char) : Nat :=
  numeral.foldl (fun acc c => 10 * acc + (c.toNat - '0'.toNat)) 0

/-- The text is a decimal numeral: every character is one of `0` to `9`. -/
def isDecimal (numeral : List Char) : Prop :=
  ∀ c ∈ numeral, '0'.toNat ≤ c.toNat ∧ c.toNat ≤ '9'.toNat

/-- The comparison of the bound path text with an id that the examples use: the text is
the decimal numeral of the id. -/
def decimalIdEq (text : String) (id : Nat) : Bool := text == toString id

instance rowOrderTotal : IsTotal Row (fun a b => a.id ≤ b.id) :=
  ⟨fun a b => Nat.le_total a.id b.id⟩

instance rowOrderTrans : IsTrans Row (fun a b => a.id ≤ b.id) :=
  ⟨fun _ _ _ h1 h2 => Nat.le_trans h1 h2⟩

/-- The row carries text: neither `name` nor `patient_number` is the empty string. -/
def Row.textual (r : Row) : Prop := r.name ≠ "" ∧ r.patient_number ≠ ""

/-- The value is a string whenever it passes the presence check. -/
def textIfPresent (v : JsVal) : Prop := v.truthy = true → ∃ s : String, v = .str s

/-- The request carries text where it carries anything: `name` and `patientNumber` of its
parsed body, if it has one, are strings whenever they pass the presence check. -/
def ApiRequest.textual : ApiRequest → Prop
  | .create (some body) =>
      textIfPresent (body.prop "name") ∧ textIfPresent (body.prop "patientNumber")
  | .update _ (some body) =>
      textIfPresent (body.prop "name") ∧ textIfPresent (body.prop "patientNumber")
  | _ => True

/-- The request reaches its handler with a parsed body, or is to a route that does not
read the body. -/
def ApiRequest.parsed : ApiRequest → Prop
  | .create none => False
  | .update _ none => False
  | _ => True

/-- The table reached from `start` by serving the requests of `history`. -/
def tableAfter (idEq : String → Nat → Bool) (start : Table)
    (history : List (ApiRequest × Bool)) : Table :=
  (run idEq start history).1

/-- The responses written while serving the requests of `history` from `start`. -/
def responsesOf (idEq : String → Nat → Bool) (start : Table)
    (history : List (ApiRequest × Bool)) : List Response :=
  (run idEq start history).2

/-- The body of the create scenario: Jane Doe, `P-1001`. -/
def janeBody : Body :=
  .object [("name", .str "Jane Doe"), ("patientNumber", .str "P-1001")]

/-- A body whose `name` is the one-element array holding the empty string. -/
def arrayNameBody : Body :=
  .object [("name", .arr [.str ""]), ("patientNumber", .str "P-1001")]

/-- The variable is unset or set to the empty string. -/
def unsetOrEmpty (v : Option String) : Prop := v = none ∨ v = some ""

/-- The process before the module body runs: nothing done, no connection held. -/
def freshProcess : Process := { log := [], connection := false }

/-- The four required variables are all set and non-empty. -/
def requiredPresent (env : Env) : Prop :=
  envTruthy env.DB_HOST = true ∧ envTruthy env.DB_NAME = true ∧
    envTruthy env.DB_SECRET_ARN = true ∧ envTruthy env.AWS_REGION = true

/-- An environment with the four required variables and no `APP_PORT`. -/
def exampleEnv : Env :=
  { APP_PORT := none, DB_HOST := some "db.internal", DB_NAME := some "clinic",
    DB_SECRET_ARN := some "arn:aws:secretsmanager:db", AWS_REGION := some "eu-west-1" }

/-- An outside where the secret is the JSON text of the empty object, which `JSON.parse`
reads as the object without properties, and where the pool and the store accept. -/
def emptySecretOutside : Outside :=
  { send := .ok { SecretString := some "\x7b\x7d" },
    JSON_parse := fun text => if text = "\x7b\x7d" then .ok (.obj []) else .error .syntaxError,
    getConnection := true, createTable := true }

/-- An outside where the secret store answers without a `SecretString`. -/
def noSecretOutside : Outside :=
  { send := .ok { SecretString := none },
    JSON_parse := fun _ => .error .syntaxError,
    getConnection := true, createTable := true }

/-- The table holding the one row of the create scenario. -/
def janeTable : Table :=
  { rows := [{ id := 1, name := "Jane Doe", patient_number := "P-1001" }],
    autoIncrement := 2 }

/-- A body renaming a patient to Jane Roe, `P-2002`. -/
def roeBody : Body :=
  .object [("name", .str "Jane Roe"), ("patientNumber", .str "P-2002")]

/-! ## What each handler does, case by case -/

theorem isMissing_not_truthy {v : JsVal} (h : isMissing v) : v.truthy = false := by
  rcases h with h | h | h <;> subst h <;> simp [JsVal.truthy]

theorem rejects_of_missing {body : Body}
    (h : isMissing (body.prop "name") ∨ isMissing (body.prop "patientNumber")) :
    rejects body = true := by
  rcases h with h | h <;> simp [rejects, isMissing_not_truthy h]

theorem truthy_str {s : String} (h : s ≠ "") : (JsVal.str s).truthy = true := by
  simp [JsVal.truthy, h]

theorem boundColumn_str (s : String) : boundColumn (.str s) = .text s := rfl

section HandlerCases

variable (idEq : String → Nat → Bool)

theorem dbPool_query_eq (q : Query) (w : World) :
    dbPool_query idEq q w =
      match w.attempt idEq q with
      | some (result, t) => (.ok result, { w with table := t, issued := w.issued ++ [q] })
      | none => (.error (.rejected "dbPool.query"), { w with issued := w.issued ++ [q] }) :=
  rfl

theorem attempt_down (q : Query) (w : World) (h : w.storeUp = false) :
    w.attempt idEq q = none := by
  simp [World.attempt, h]

theorem attempt_up (q : Query) (w : World) (h : w.storeUp = true) :
    w.attempt idEq q = w.table.exec idEq q := by
  simp [World.attempt, h]

theorem getPatients_eq (w : World) :
    getPatients idEq w =
      match w.attempt idEq .selectAll with
      | some (result, t) =>
        (.ok (), { w with
          table := t,
          sent := w.sent ++ [jsonResponse 200 (patientsBody result.rows)],
          issued := w.issued ++ [.selectAll] })
      | none =>
        (.ok (), { w with
          sent := w.sent ++ [jsonResponse 500 (errorBody "Failed to fetch patients.")],
          issued := w.issued ++ [.selectAll] }) := by
  rcases ha : w.attempt idEq .selectAll with _ | ⟨result, t⟩ <;>
    simp [getPatients, tryCatchEff, bind, Eff.bind, dbPool_query_eq, ha, res_json,
      jsonResponse, patientsBody]

theorem postPatients_eq (body : Body) (w : World) :
    postPatients idEq body w =
      if rejects body then
        (.ok (), { w with
          sent := w.sent ++ [jsonResponse 400 (errorBody "Missing name or patientNumber.")] })
      else
        match w.attempt idEq (.insert (body.prop "name") (body.prop "patientNumber")) with
        | some (result, t) =>
          (.ok (), { w with
            table := t,
            sent := w.sent ++ [jsonResponse 201 (createdBody result.insertId
              (body.prop "name") (body.prop "patientNumber"))],
            issued := w.issued ++ [.insert (body.prop "name") (body.prop "patientNumber")] })
        | none =>
          (.ok (), { w with
            sent := w.sent ++ [jsonResponse 500 (errorBody "Failed to add patient.")],
            issued := w.issued ++
              [.insert (body.prop "name") (body.prop "patientNumber")] }) := by
  cases hr : rejects body
  · have hr2 : (!(body.prop "name").truthy || !(body.prop "patientNumber").truthy) = false := hr
    rcases ha : w.attempt idEq (.insert (body.prop "name") (body.prop "patientNumber"))
      with _ | ⟨result, t⟩ <;>
      simp [postPatients, hr2, tryCatchEff, bind, Eff.bind, dbPool_query_eq, ha, res_json,
        jsonResponse, createdBody]
  · have hr2 : (!(body.prop "name").truthy || !(body.prop "patientNumber").truthy) = true := hr
    simp only [postPatients, hr2, if_true, res_json, jsonResponse]

theorem putPatient_eq (id : String) (body : Body) (w : World) :
    putPatient idEq id body w =
      if rejects body then
        (.ok (), { w with
          sent := w.sent ++ [jsonResponse 400 (errorBody "Missing name or patientNumber.")] })
      else
        match w.attempt idEq (.update (body.prop "name") (body.prop "patientNumber") id) with
        | some (result, t) =>
          (.ok (), { w with
            table := t,
            sent := w.sent ++
              [if result.affectedRows = 0 then
                 jsonResponse 404 (errorBody "Patient not found.")
               else jsonResponse 200
                 (.obj [("message", .str "Patient updated successfully.")])],
            issued := w.issued ++
              [.update (body.prop "name") (body.prop "patientNumber") id] })
        | none =>
          (.ok (), { w with
            sent := w.sent ++ [jsonResponse 500 (errorBody "Failed to update patient.")],
            issued := w.issued ++
              [.update (body.prop "name") (body.prop "patientNumber") id] }) := by
  cases hr : rejects body
  · have hr2 : (!(body.prop "name").truthy || !(body.prop "patientNumber").truthy) = false := hr
    rcases ha : w.attempt idEq (.update (body.prop "name") (body.prop "patientNumber") id)
      with _ | ⟨result, t⟩
    · simp [putPatient, hr2, tryCatchEff, bind, Eff.bind, dbPool_query_eq, ha, res_json,
        jsonResponse]
    · by_cases hm : result.affectedRows = 0 <;>
        simp [putPatient, hr2, tryCatchEff, bind, Eff.bind, dbPool_query_eq, ha, res_json,
          jsonResponse, hm]
  · have hr2 : (!(body.prop "name").truthy || !(body.prop "patientNumber").truthy) = true := hr
    simp only [putPatient, hr2, if_true, res_json, jsonResponse]

theorem deletePatient_eq (id : String) (w : World) :
    deletePatient idEq id w =
      match w.attempt idEq (.delete id) with
      | some (result, t) =>
        (.ok (), { w with
          table := t,
          sent := w.sent ++
            [if result.affectedRows = 0 then
               jsonResponse 404 (errorBody "Patient not found.")
             else { status := 204, body := none }],
          issued := w.issued ++ [.delete id] })
      | none =>
        (.ok (), { w with
          sent := w.sent ++ [jsonResponse 500 (errorBody "Failed to delete patient.")],
          issued := w.issued ++ [.delete id] }) := by
  rcases ha : w.attempt idEq (.delete id) with _ | ⟨result, t⟩
  · simp [deletePatient, tryCatchEff, bind, Eff.bind, dbPool_query_eq, ha, res_json,
      jsonResponse]
  · by_cases hm : result.affectedRows = 0 <;>
      simp [deletePatient, tryCatchEff, bind, Eff.bind, dbPool_query_eq, ha, res_json,
        res_send, jsonResponse, hm]

end HandlerCases

/-! ## The store statements on ordered lists -/

theorem orderById_perm (rows : List Row) : (orderById rows).Perm rows :=
  List.perm_insertionSort _ rows

theorem orderById_sorted (rows : List Row) :
    (orderById rows).Sorted (fun a b => a.id ≤ b.id) :=
  List.sorted_insertionSort _ rows

theorem orderedInsert_append_last (a x : Row) (hax : a.id ≤ x.id) :
    ∀ rows : List Row,
      (rows ++ [x]).orderedInsert (fun u v => u.id ≤ v.id) a =
        rows.orderedInsert (fun u v => u.id ≤ v.id) a ++ [x]
  | [] => by simp [List.orderedInsert, hax]
  | b :: rest => by
    by_cases hab : a.id ≤ b.id
    · simp [List.orderedInsert, hab]
    · simp [List.orderedInsert, hab, orderedInsert_append_last a x hax rest]

theorem orderById_append_last (x : Row) :
    ∀ rows : List Row, (∀ r ∈ rows, r.id ≤ x.id) →
      orderById (rows ++ [x]) = orderById rows ++ [x]
  | [], _ => by simp [orderById]
  | a :: rest, h => by
    have ih := orderById_append_last x rest (fun r hr => h r (List.mem_cons_of_mem _ hr))
    have hax : a.id ≤ x.id := h a (List.mem_cons_self _ _)
    unfold orderById at ih ⊢
    rw [List.cons_append, List.insertionSort, ih, orderedInsert_append_last a x hax,
      List.insertionSort]

theorem updateRow_id (idEq : String → Nat → Bool) (n p : String) (id : String) (r : Row) :
    (updateRow idEq n p id r).id = r.id := by
  unfold updateRow
  split <;> rfl

theorem orderById_map_updateRow (idEq : String → Nat → Bool) (n p : String) (id : String)
    (rows : List Row) :
    orderById (rows.map (updateRow idEq n p id)) = (orderById rows).map (updateRow idEq n p id) := by
  unfold orderById
  symm
  apply List.map_insertionSort
  intro a _ b _
  simp [updateRow_id]

theorem filter_orderedInsert (keep : Row → Bool) (a : Row) :
    ∀ rows : List Row, rows.Sorted (fun x y => x.id ≤ y.id) →
      (rows.orderedInsert (fun x y => x.id ≤ y.id) a).filter keep =
        if keep a then (rows.filter keep).orderedInsert (fun x y => x.id ≤ y.id) a
        else rows.filter keep
  | [], _ => by by_cases ha : keep a = true <;> simp [ha]
  | b :: rest, hs => by
    have hrest : rest.Sorted (fun x y => x.id ≤ y.id) := List.Sorted.of_cons hs
    have hb : ∀ c ∈ rest, b.id ≤ c.id := fun c hc => List.rel_of_sorted_cons hs c hc
    have ih := filter_orderedInsert keep a rest hrest
    by_cases hab : a.id ≤ b.id
    · have hall : ∀ c ∈ (b :: rest).filter keep, a.id ≤ c.id := by
        intro c hc
        rcases List.mem_cons.mp (List.mem_of_mem_filter hc) with h | h
        · simpa [h] using hab
        · exact le_trans hab (hb c h)
      rw [List.orderedInsert, if_pos hab]
      by_cases ha : keep a = true
      · rw [if_pos ha, List.filter_cons_of_pos ha]
        cases hf : (b :: rest).filter keep with
        | nil => simp
        | cons c cs =>
          have hac : a.id ≤ c.id := hall c (by rw [hf]; exact List.mem_cons_self c cs)
          rw [List.orderedInsert, if_pos hac]
      · rw [if_neg ha, List.filter_cons_of_neg ha]
    · rw [List.orderedInsert, if_neg hab]
      by_cases hkb : keep b = true
      · rw [List.filter_cons_of_pos hkb, List.filter_cons_of_pos hkb, ih]
        by_cases ha : keep a = true
        · rw [if_pos ha, if_pos ha, List.orderedInsert, if_neg hab]
        · rw [if_neg ha, if_neg ha]
      · rw [List.filter_cons_of_neg hkb, List.filter_cons_of_neg hkb, ih]

theorem orderById_filter (keep : Row → Bool) :
    ∀ rows : List Row, orderById (rows.filter keep) = (orderById rows).filter keep
  | [] => by simp [orderById]
  | a :: rest => by
    have ih := orderById_filter keep rest
    unfold orderById at ih ⊢
    rw [List.insertionSort, filter_orderedInsert keep a _ (List.sorted_insertionSort _ rest)]
    by_cases ha : keep a = true
    · rw [if_pos ha, List.filter_cons_of_pos ha, List.insertionSort, ih]
    · rw [if_neg ha, List.filter_cons_of_neg ha, ih]

/-! ## The statements on a table without a match -/

theorem map_updateRow_of_no_match (idEq : String → Nat → Bool) (n p : String) (id : String)
    (rows : List Row) (h : ∀ r ∈ rows, idEq id r.id = false) :
    rows.map (updateRow idEq n p id) = rows := by
  have : ∀ r ∈ rows, updateRow idEq n p id r = r := by
    intro r hr
    simp [updateRow, h r hr]
  simpa using List.map_congr_left this

theorem filter_of_no_match (idEq : String → Nat → Bool) (id : String)
    (rows : List Row) (h : ∀ r ∈ rows, idEq id r.id = false) :
    rows.filter (fun r => !idEq id r.id) = rows := by
  apply List.filter_eq_self.mpr
  intro r hr
  simp [h r hr]

theorem matches_length_eq_zero (idEq : String → Nat → Bool) (id : String) (rows : List Row) :
    (rows.filter (fun r => idEq id r.id)).length = 0 ↔ ∀ r ∈ rows, idEq id r.id = false := by
  rw [List.length_eq_zero, List.filter_eq_nil_iff]
  simp

/-! ## The route contracts -/

/-- C1: when `name` or `patientNumber` of the request body is absent, `null` or the empty
string, both the create handler and the update handler (for any path id) answer 400 with
the body `error: "Missing name or patientNumber."`; the only change to the world is that
one response, so no statement is issued and the table is as before. -/
theorem missing_field_rejected (idEq : String → Nat → Bool) (body : Body) (id : String)
    (w : World)
    (h : isMissing (body.prop "name") ∨ isMissing (body.prop "patientNumber")) :
    postPatients idEq body w =
        (.ok (), { table := w.table, storeUp := w.storeUp, issued := w.issued,
                   sent := w.sent ++
                     [jsonResponse 400 (errorBody "Missing name or patientNumber.")] })
      ∧ putPatient idEq id body w =
        (.ok (), { table := w.table, storeUp := w.storeUp, issued := w.issued,
                   sent := w.sent ++
                     [jsonResponse 400 (errorBody "Missing name or patientNumber.")] }) := by
  constructor
  · rw [postPatients_eq, if_pos (rejects_of_missing h)]
  · rw [putPatient_eq, if_pos (rejects_of_missing h)]

/-- Witness for C1: the body with an empty `name` and no `patientNumber`, on the empty
table. -/
theorem missing_field_rejected_witness :
    (isMissing ((Body.object [("name", .str "")]).prop "name") ∨
      isMissing ((Body.object [("name", .str "")]).prop "patientNumber"))
    ∧ (postPatients decimalIdEq (.object [("name", .str "")])
        { table := Table.empty, storeUp := true, sent := [], issued := [] } =
        (.ok (), { table := Table.empty, storeUp := true, issued := [],
                   sent := [] ++
                     [jsonResponse 400 (errorBody "Missing name or patientNumber.")] })
      ∧ putPatient decimalIdEq "1" (.object [("name", .str "")])
        { table := Table.empty, storeUp := true, sent := [], issued := [] } =
        (.ok (), { table := Table.empty, storeUp := true, issued := [],
                   sent := [] ++
                     [jsonResponse 400 (errorBody "Missing name or patientNumber.")] })) :=
  ⟨Or.inl (Or.inr (Or.inr rfl)),
   missing_field_rejected decimalIdEq (.object [("name", .str "")]) "1"
    { table := Table.empty, storeUp := true, sent := [], issued := [] }
    (Or.inl (Or.inr (Or.inr rfl)))⟩

/-- C3: on every table, when the store executes the statement, the list handler answers
200 with the body `patients: rows`, where `rows` is a rearrangement of the persisted rows
(each exactly once) in non-decreasing id order; the table is not changed. -/
theorem list_returns_all_rows_in_id_order (idEq : String → Nat → Bool) (t : Table) :
    ∃ rows : List Row,
      handle idEq t .list true =
        (.ok (), { table := t, storeUp := true, issued := [.selectAll],
                   sent := [jsonResponse 200 (patientsBody rows)] })
      ∧ rows.Perm t.rows
      ∧ rows.Sorted (fun a b => a.id ≤ b.id) := by
  refine ⟨orderById t.rows, ?_, orderById_perm _, orderById_sorted _⟩
  simp [handle, serve, getPatients_eq, World.attempt, Table.exec]

theorem list_sent (idEq : String → Nat → Bool) (t : Table) :
    (handle idEq t .list true).2.sent = [jsonResponse 200 (patientsBody (orderById t.rows))] := by
  simp [handle, serve, getPatients_eq, World.attempt, Table.exec]

/-- C4: for every table, path id and body whose `name` and `patientNumber` are the
non-empty strings `n` and `p`, the store executing the statement: if some row matches the
id, the update handler answers 200 with `message: "Patient updated successfully."`, every
matching row keeps its id and now carries `(n, p)` (also when it carried them before),
every other row is unchanged, and the list served afterwards is the list served before
with exactly that change; if no row matches, it answers 404 with
`error: "Patient not found."` and the table is unchanged. -/
theorem update_changes_matching_row_or_404 (idEq : String → Nat → Bool) (t : Table)
    (id : String) (body : Body) (n p : String)
    (hn : body.prop "name" = .str n) (hp : body.prop "patientNumber" = .str p)
    (hne : n ≠ "") (hpe : p ≠ "") :
    ((∃ r ∈ t.rows, idEq id r.id = true) →
      handle idEq t (.update id (some body)) true =
        (.ok (), { table := { rows := t.rows.map (updateRow idEq n p id),
                              autoIncrement := t.autoIncrement },
                   storeUp := true,
                   issued := [.update (.str n) (.str p) id],
                   sent := [jsonResponse 200
                     (.obj [("message", .str "Patient updated successfully.")])] })
      ∧ (∀ r : Row, idEq id r.id = true →
          updateRow idEq n p id r = { id := r.id, name := n, patient_number := p })
      ∧ (∀ r : Row, idEq id r.id = false → updateRow idEq n p id r = r)
      ∧ (handle idEq (handle idEq t (.update id (some body)) true).2.table .list true).2.sent =
          [jsonResponse 200 (patientsBody
            ((orderById t.rows).map (updateRow idEq n p id)))])
    ∧ ((¬ ∃ r ∈ t.rows, idEq id r.id = true) →
      handle idEq t (.update id (some body)) true =
        (.ok (), { table := t, storeUp := true,
                   issued := [.update (.str n) (.str p) id],
                   sent := [jsonResponse 404 (errorBody "Patient not found.")] })) := by
  have hrej : rejects body = false := by
    simp [rejects, hn, hp, truthy_str hne, truthy_str hpe]
  have hrun : handle idEq t (.update id (some body)) true =
      (.ok (), { table := { rows := t.rows.map (updateRow idEq n p id),
                            autoIncrement := t.autoIncrement },
                 storeUp := true,
                 issued := [.update (.str n) (.str p) id],
                 sent := [if (t.rows.filter (fun r => idEq id r.id)).length = 0 then
                     jsonResponse 404 (errorBody "Patient not found.")
                   else jsonResponse 200
                     (.obj [("message", .str "Patient updated successfully.")])] }) := by
    simp [handle, serve, withBody, putPatient_eq, hrej, hn, hp, World.attempt, Table.exec,
      boundColumn_str]
  constructor
  · rintro ⟨r, hr, hm⟩
    have hlen : ¬ (t.rows.filter (fun r => idEq id r.id)).length = 0 := by
      rw [matches_length_eq_zero]
      intro hall
      simp [hall r hr] at hm
    refine ⟨?_, ?_, ?_, ?_⟩
    · rw [hrun, if_neg hlen]
    · intro r hr; simp [updateRow, hr]
    · intro r hr; simp [updateRow, hr]
    · rw [hrun, list_sent]
      simp [orderById_map_updateRow]
  · intro hnone
    have hall : ∀ r ∈ t.rows, idEq id r.id = false := by
      intro r hr
      by_contra hc
      exact hnone ⟨r, hr, by simpa using hc⟩
    have hlen : (t.rows.filter (fun r => idEq id r.id)).length = 0 :=
      (matches_length_eq_zero idEq id t.rows).mpr hall
    rw [hrun, if_pos hlen, map_updateRow_of_no_match idEq _ _ id t.rows hall]

/-- C5: for every table and path id, the store executing the statement: if some row
matches the id, the delete handler answers 204 with no body, the table keeps exactly the
rows that do not match, unchanged and in place, and the list served afterwards is the list
served before without the matching rows; if no row matches, it answers 404 with
`error: "Patient not found."` and the table is unchanged. -/
theorem delete_removes_matching_row_or_404 (idEq : String → Nat → Bool) (t : Table)
    (id : String) :
    ((∃ r ∈ t.rows, idEq id r.id = true) →
      handle idEq t (.remove id) true =
        (.ok (), { table := { rows := t.rows.filter (fun r => !idEq id r.id),
                              autoIncrement := t.autoIncrement },
                   storeUp := true,
                   issued := [.delete id],
                   sent := [{ status := 204, body := none }] })
      ∧ (∀ r ∈ (handle idEq t (.remove id) true).2.table.rows, idEq id r.id = false)
      ∧ (handle idEq (handle idEq t (.remove id) true).2.table .list true).2.sent =
          [jsonResponse 200 (patientsBody
            ((orderById t.rows).filter (fun r => !idEq id r.id)))])
    ∧ ((¬ ∃ r ∈ t.rows, idEq id r.id = true) →
      handle idEq t (.remove id) true =
        (.ok (), { table := t, storeUp := true,
                   issued := [.delete id],
                   sent := [jsonResponse 404 (errorBody "Patient not found.")] })) := by
  have hrun : handle idEq t (.remove id) true =
      (.ok (), { table := { rows := t.rows.filter (fun r => !idEq id r.id),
                            autoIncrement := t.autoIncrement },
                 storeUp := true,
                 issued := [.delete id],
                 sent := [if (t.rows.filter (fun r => idEq id r.id)).length = 0 then
                     jsonResponse 404 (errorBody "Patient not found.")
                   else { status := 204, body := none }] }) := by
    simp [handle, serve, deletePatient_eq, World.attempt, Table.exec]
  constructor
  · rintro ⟨r, hr, hm⟩
    have hlen : ¬ (t.rows.filter (fun r => idEq id r.id)).length = 0 := by
      rw [matches_length_eq_zero]
      intro hall
      simp [hall r hr] at hm
    refine ⟨?_, ?_, ?_⟩
    · rw [hrun, if_neg hlen]
    · rw [hrun]
      intro r hr
      simpa using (List.mem_filter.mp hr).2
    · rw [hrun, list_sent]
      simp [orderById_filter]
  · intro hnone
    have hall : ∀ r ∈ t.rows, idEq id r.id = false := by
      intro r hr
      by_contra hc
      exact hnone ⟨r, hr, by simpa using hc⟩
    have hlen : (t.rows.filter (fun r => idEq id r.id)).length = 0 :=
      (matches_length_eq_zero idEq id t.rows).mpr hall
    rw [hrun, if_pos hlen, filter_of_no_match idEq id t.rows hall]

theorem append_singleton_ne {α : Type} (l : List α) (a : α) : l ++ [a] ≠ l := by
  intro h
  have := congrArg List.length h
  simp at this

/-- For every request that reaches its handler with a parsed body, and every request to
a route that reads no body, in every world and with either outcome of the store, the
handler returns without throwing and writes exactly one response; when the store is down
and a statement was issued the status is 500, and every response with status 400, 404 or
500 has a body of the shape `error: message`. -/
theorem parsed_request_gets_one_response (idEq : String → Nat → Bool) (req : ApiRequest)
    (w : World) (hreq : req.parsed) :
    ∃ resp : Response,
      (serve idEq req w).1 = .ok ()
      ∧ (serve idEq req w).2.sent = w.sent ++ [resp]
      ∧ (w.storeUp = false → (serve idEq req w).2.issued ≠ w.issued → resp.status = 500)
      ∧ (resp.status = 400 ∨ resp.status = 404 ∨ resp.status = 500 →
          ∃ message : String, resp.body = some (errorBody message)) := by
  cases req with
  | list =>
    rcases ha : w.attempt idEq .selectAll with _ | ⟨result, t⟩
    · refine ⟨jsonResponse 500 (errorBody "Failed to fetch patients."), ?_, ?_, ?_, ?_⟩ <;>
        simp [serve, getPatients_eq, ha, jsonResponse]
    · have hup : w.storeUp = true := by
        by_contra hdown
        rw [attempt_down idEq _ w (by simpa using hdown)] at ha
        exact Option.noConfusion ha
      refine ⟨jsonResponse 200 (patientsBody result.rows), ?_, ?_, ?_, ?_⟩ <;>
        simp [serve, getPatients_eq, ha, jsonResponse, hup]
  | create reqBody =>
    cases reqBody with
    | none => exact absurd hreq (by simp [ApiRequest.parsed])
    | some body =>
      cases hr : rejects body
      · rcases ha : w.attempt idEq (.insert (body.prop "name") (body.prop "patientNumber"))
          with _ | ⟨result, t⟩
        · refine ⟨jsonResponse 500 (errorBody "Failed to add patient."), ?_, ?_, ?_, ?_⟩ <;>
            simp [serve, withBody, postPatients_eq, hr, ha, jsonResponse]
        · have hup : w.storeUp = true := by
            by_contra hdown
            rw [attempt_down idEq _ w (by simpa using hdown)] at ha
            exact Option.noConfusion ha
          refine ⟨jsonResponse 201 (createdBody result.insertId (body.prop "name")
            (body.prop "patientNumber")), ?_, ?_, ?_, ?_⟩ <;>
            simp [serve, withBody, postPatients_eq, hr, ha, jsonResponse, hup]
      · refine ⟨jsonResponse 400 (errorBody "Missing name or patientNumber."),
          ?_, ?_, ?_, ?_⟩ <;>
          simp [serve, withBody, postPatients_eq, hr, jsonResponse]
  | update id reqBody =>
    cases reqBody with
    | none => exact absurd hreq (by simp [ApiRequest.parsed])
    | some body =>
      cases hr : rejects body
      · rcases ha : w.attempt idEq
          (.update (body.prop "name") (body.prop "patientNumber") id) with _ | ⟨result, t⟩
        · refine ⟨jsonResponse 500 (errorBody "Failed to update patient."), ?_, ?_, ?_, ?_⟩ <;>
            simp [serve, withBody, putPatient_eq, hr, ha, jsonResponse]
        · have hup : w.storeUp = true := by
            by_contra hdown
            rw [attempt_down idEq _ w (by simpa using hdown)] at ha
            exact Option.noConfusion ha
          by_cases hm : result.affectedRows = 0
          · refine ⟨jsonResponse 404 (errorBody "Patient not found."), ?_, ?_, ?_, ?_⟩ <;>
              simp [serve, withBody, putPatient_eq, hr, ha, hm, jsonResponse, hup]
          · refine ⟨jsonResponse 200
              (.obj [("message", .str "Patient updated successfully.")]), ?_, ?_, ?_, ?_⟩ <;>
              simp [serve, withBody, putPatient_eq, hr, ha, hm, jsonResponse, hup]
      · refine ⟨jsonResponse 400 (errorBody "Missing name or patientNumber."),
          ?_, ?_, ?_, ?_⟩ <;>
          simp [serve, withBody, putPatient_eq, hr, jsonResponse]
  | remove id =>
    rcases ha : w.attempt idEq (.delete id) with _ | ⟨result, t⟩
    · refine ⟨jsonResponse 500 (errorBody "Failed to delete patient."), ?_, ?_, ?_, ?_⟩ <;>
        simp [serve, deletePatient_eq, ha, jsonResponse]
    · have hup : w.storeUp = true := by
        by_contra hdown
        rw [attempt_down idEq _ w (by simpa using hdown)] at ha
        exact Option.noConfusion ha
      by_cases hm : result.affectedRows = 0
      · refine ⟨jsonResponse 404 (errorBody "Patient not found."), ?_, ?_, ?_, ?_⟩ <;>
          simp [serve, deletePatient_eq, ha, hm, jsonResponse, hup]
      · refine ⟨{ status := 204, body := none }, ?_, ?_, ?_, ?_⟩ <;>
          simp [serve, deletePatient_eq, ha, hm, jsonResponse, hup]

/-- C6, where the code departs from it: when no body was parsed and `req.body` is
`undefined`, the destructuring on line 122 of the create handler and on line 142 of the
update handler, both outside the `try`, throws a `TypeError`. The error leaves the
handler, which has written no response and issued no statement: the world is as it
was. -/
theorem unparsed_body_escapes_handler (idEq : String → Nat → Bool) (id : String)
    (w : World) :
    serve idEq (.create none) w = (.error .typeError, w)
    ∧ serve idEq (.update id none) w = (.error .typeError, w) :=
  ⟨rfl, rfl⟩

/-! ## Invariants along a sequence of requests -/

theorem run_cons (idEq : String → Nat → Bool) (t : Table) (req : ApiRequest) (up : Bool)
    (rest : List (ApiRequest × Bool)) :
    run idEq t ((req, up) :: rest) =
      ((run idEq (handle idEq t req up).2.table rest).1,
       (handle idEq t req up).2.sent ++ (run idEq (handle idEq t req up).2.table rest).2) := by
  simp [run]

theorem rejects_eq_false {body : Body} (h : rejects body = false) :
    (body.prop "name").truthy = true ∧ (body.prop "patientNumber").truthy = true := by
  simpa [rejects] using h

/-- What a statement the store executes does to the table. -/
theorem exec_cases (idEq : String → Nat → Bool) (t t2 : Table) (q : Query)
    (result : QueryResult) (h : t.exec idEq q = some (result, t2)) :
    t2 = t
    ∨ (∃ (name patientNumber : JsVal) (n p : String),
        q = .insert name patientNumber ∧ boundColumn name = .text n ∧
        boundColumn patientNumber = .text p ∧ result.insertId = t.autoIncrement ∧
        t2 = { rows := t.rows ++ [{ id := t.autoIncrement, name := n, patient_number := p }],
               autoIncrement := t.autoIncrement + 1 })
    ∨ (∃ (name patientNumber : JsVal) (id : String) (n p : String),
        q = .update name patientNumber id ∧ boundColumn name = .text n ∧
        boundColumn patientNumber = .text p ∧
        t2 = { rows := t.rows.map (updateRow idEq n p id),
               autoIncrement := t.autoIncrement })
    ∨ (∃ id : String, q = .delete id ∧
        t2 = { rows := t.rows.filter (fun r => !idEq id r.id),
               autoIncrement := t.autoIncrement }) := by
  cases q with
  | selectAll =>
    left
    simp [Table.exec] at h
    exact h.2.symm
  | insert name patientNumber =>
    right; left
    cases hn : boundColumn name <;> cases hp : boundColumn patientNumber <;>
      simp [Table.exec, hn, hp] at h
    rename_i n p
    exact ⟨name, patientNumber, n, p, rfl, hn, hp, by rw [← h.1], h.2.symm⟩
  | update name patientNumber id =>
    cases hn : boundColumn name <;> cases hp : boundColumn patientNumber <;>
      simp [Table.exec, hn, hp] at h
    · left; exact h.2.2.symm
    · left; exact h.2.2.symm
    · left; exact h.2.2.symm
    · rename_i n p
      right; right; left
      exact ⟨name, patientNumber, id, n, p, rfl, hn, hp, h.2.symm⟩
  | delete id =>
    right; right; right
    simp [Table.exec] at h
    exact ⟨id, rfl, h.2.symm⟩

/-- The table a request leaves behind: the old one, or the result of its statement. -/
theorem handle_table (idEq : String → Nat → Bool) (t : Table) (req : ApiRequest) (up : Bool) :
    (handle idEq t req up).2.table = t
    ∨ (∃ (body : Body) (n p : String), req = .create (some body) ∧ rejects body = false ∧
        boundColumn (body.prop "name") = .text n ∧
        boundColumn (body.prop "patientNumber") = .text p ∧
        (handle idEq t req up).2.table =
          { rows := t.rows ++ [{ id := t.autoIncrement, name := n, patient_number := p }],
            autoIncrement := t.autoIncrement + 1 })
    ∨ (∃ (id : String) (body : Body) (n p : String), req = .update id (some body) ∧
        rejects body = false ∧
        boundColumn (body.prop "name") = .text n ∧
        boundColumn (body.prop "patientNumber") = .text p ∧
        (handle idEq t req up).2.table =
          { rows := t.rows.map (updateRow idEq n p id),
            autoIncrement := t.autoIncrement })
    ∨ (∃ id : String, req = .remove id ∧
        (handle idEq t req up).2.table =
          { rows := t.rows.filter (fun r => !idEq id r.id),
            autoIncrement := t.autoIncrement }) := by
  cases req with
  | list =>
    left
    rcases ha : World.attempt idEq { table := t, storeUp := up, sent := [], issued := [] }
      .selectAll with _ | ⟨result, t2⟩
    · simp [handle, serve, getPatients_eq, ha]
    · cases up
      · simp [World.attempt] at ha
      · simp [World.attempt, Table.exec] at ha
        simp [handle, serve, getPatients_eq, World.attempt, Table.exec]
  | create reqBody =>
    cases reqBody with
    | none => left; rfl
    | some body =>
      cases hr : rejects body
      · rcases ha : World.attempt idEq { table := t, storeUp := up, sent := [], issued := [] }
          (.insert (body.prop "name") (body.prop "patientNumber")) with _ | ⟨result, t2⟩
        · left; simp [handle, serve, withBody, postPatients_eq, hr, ha]
        · have htab : (handle idEq t (.create (some body)) up).2.table = t2 := by
            simp [handle, serve, withBody, postPatients_eq, hr, ha]
          cases up
          · simp [World.attempt] at ha
          · have hex : t.exec idEq (.insert (body.prop "name") (body.prop "patientNumber")) =
                some (result, t2) := by simpa [World.attempt] using ha
            rcases exec_cases idEq t t2 _ result hex with h | ⟨_, _, n, p, hq, hn, hp, _, h⟩ |
              ⟨_, _, _, _, _, hq, _⟩ | ⟨_, hq, _⟩
            · left; rw [htab, h]
            · right; left
              injection hq with h1 h2
              subst h1; subst h2
              exact ⟨body, n, p, rfl, hr, hn, hp, by rw [htab, h]⟩
            · exact Query.noConfusion hq
            · exact Query.noConfusion hq
      · left; simp [handle, serve, withBody, postPatients_eq, hr]
  | update id reqBody =>
    cases reqBody with
    | none => left; rfl
    | some body =>
      cases hr : rejects body
      · rcases ha : World.attempt idEq { table := t, storeUp := up, sent := [], issued := [] }
          (.update (body.prop "name") (body.prop "patientNumber") id) with _ | ⟨result, t2⟩
        · left; simp [handle, serve, withBody, putPatient_eq, hr, ha]
        · have htab : (handle idEq t (.update id (some body)) up).2.table = t2 := by
            simp [handle, serve, withBody, putPatient_eq, hr, ha]
          cases up
          · simp [World.attempt] at ha
          · have hex : t.exec idEq
                (.update (body.prop "name") (body.prop "patientNumber") id) =
                some (result, t2) := by simpa [World.attempt] using ha
            rcases exec_cases idEq t t2 _ result hex with h | ⟨_, _, _, _, hq, _⟩ |
              ⟨_, _, _, n, p, hq, hn, hp, h⟩ | ⟨_, hq, _⟩
            · left; rw [htab, h]
            · exact Query.noConfusion hq
            · right; right; left
              injection hq with h1 h2 h3
              subst h1; subst h2; subst h3
              exact ⟨id, body, n, p, rfl, hr, hn, hp, by rw [htab, h]⟩
            · exact Query.noConfusion hq
      · left; simp [handle, serve, withBody, putPatient_eq, hr]
  | remove id =>
    cases up
    · left; simp [handle, serve, deletePatient_eq, World.attempt]
    · right; right; right
      exact ⟨id, rfl, by simp [handle, serve, deletePatient_eq, World.attempt, Table.exec]⟩

/-- A response with status 201 is written only by a create that the store executed. -/
theorem handle_created (idEq : String → Nat → Bool) (t : Table) (req : ApiRequest) (up : Bool)
    (resp : Response) (hmem : resp ∈ (handle idEq t req up).2.sent) (hst : resp.status = 201) :
    ∃ body : Body, resp = jsonResponse 201 (createdBody t.autoIncrement
        (body.prop "name") (body.prop "patientNumber")) ∧
      (handle idEq t req up).2.table.autoIncrement = t.autoIncrement + 1 := by
  cases req with
  | list =>
    rcases ha : World.attempt idEq { table := t, storeUp := up, sent := [], issued := [] }
      .selectAll with _ | ⟨result, t2⟩ <;>
      simp [handle, serve, getPatients_eq, ha, jsonResponse] at hmem <;>
      simp [hmem] at hst
  | create reqBody =>
    cases reqBody with
    | none => simp [handle, serve, withBody, throwEff] at hmem
    | some body =>
      cases hr : rejects body
      · rcases ha : World.attempt idEq { table := t, storeUp := up, sent := [], issued := [] }
          (.insert (body.prop "name") (body.prop "patientNumber")) with _ | ⟨result, t2⟩
        · simp [handle, serve, withBody, postPatients_eq, hr, ha, jsonResponse] at hmem
          simp [hmem] at hst
        · have htab : (handle idEq t (.create (some body)) up).2.table = t2 := by
            simp [handle, serve, withBody, postPatients_eq, hr, ha]
          have hsent : resp = jsonResponse 201 (createdBody result.insertId
              (body.prop "name") (body.prop "patientNumber")) := by
            simpa [handle, serve, withBody, postPatients_eq, hr, ha] using hmem
          cases up
          · simp [World.attempt] at ha
          · have hex : t.exec idEq (.insert (body.prop "name") (body.prop "patientNumber")) =
                some (result, t2) := by simpa [World.attempt] using ha
            cases hn : boundColumn (body.prop "name") <;>
              cases hp : boundColumn (body.prop "patientNumber") <;>
              simp [Table.exec, hn, hp] at hex
            refine ⟨body, ?_, ?_⟩
            · rw [hsent, ← hex.1]
            · rw [htab, ← hex.2]
      · simp [handle, serve, withBody, postPatients_eq, hr, jsonResponse] at hmem
        simp [hmem] at hst
  | update id reqBody =>
    cases reqBody with
    | none => simp [handle, serve, withBody, throwEff] at hmem
    | some body =>
      cases hr : rejects body
      · rcases ha : World.attempt idEq { table := t, storeUp := up, sent := [], issued := [] }
          (.update (body.prop "name") (body.prop "patientNumber") id) with _ | ⟨result, t2⟩
        · simp [handle, serve, withBody, putPatient_eq, hr, ha, jsonResponse] at hmem
          simp [hmem] at hst
        · simp [handle, serve, withBody, putPatient_eq, hr, ha, jsonResponse] at hmem
          split at hmem <;> simp [hmem] at hst
      · simp [handle, serve, withBody, putPatient_eq, hr, jsonResponse] at hmem
        simp [hmem] at hst
  | remove id =>
    rcases ha : World.attempt idEq { table := t, storeUp := up, sent := [], issued := [] }
      (.delete id) with _ | ⟨result, t2⟩
    · simp [handle, serve, deletePatient_eq, ha, jsonResponse] at hmem
      simp [hmem] at hst
    · simp [handle, serve, deletePatient_eq, ha, jsonResponse] at hmem
      split at hmem <;> simp [hmem] at hst

theorem handle_preserves_WF (idEq : String → Nat → Bool) (t : Table) (req : ApiRequest)
    (up : Bool) (h : t.WF) :
    (handle idEq t req up).2.table.WF ∧
      t.autoIncrement ≤ (handle idEq t req up).2.table.autoIncrement := by
  rcases handle_table idEq t req up with ht | ⟨body, n, p, _, _, _, _, ht⟩ |
    ⟨id, body, n, p, _, _, _, _, ht⟩ | ⟨id, _, ht⟩
  · rw [ht]; exact ⟨h, le_refl _⟩
  · rw [ht]
    refine ⟨?_, Nat.le_succ _⟩
    intro r hr
    rcases List.mem_append.mp hr with hr | hr
    · exact Nat.lt_succ_of_lt (h r hr)
    · rw [List.mem_singleton] at hr
      subst hr
      exact Nat.lt_succ_self _
  · rw [ht]
    refine ⟨?_, le_refl _⟩
    intro r hr
    rcases List.mem_map.mp hr with ⟨r0, hr0, rfl⟩
    rw [updateRow_id]
    exact h r0 hr0
  · rw [ht]
    refine ⟨?_, le_refl _⟩
    intro r hr
    exact h r (List.mem_of_mem_filter hr)

theorem text_of_truthy {v : JsVal} {s : String} (ht : textIfPresent v)
    (hv : v.truthy = true) (hb : boundColumn v = .text s) : s ≠ "" := by
  obtain ⟨s2, hs⟩ := ht hv
  subst hs
  rw [boundColumn_str] at hb
  injection hb with hb
  subst hb
  intro hempty
  rw [hempty] at hv
  simp [JsVal.truthy] at hv

theorem handle_preserves_textual (idEq : String → Nat → Bool) (t : Table) (req : ApiRequest)
    (up : Bool) (hreq : req.textual) (h : ∀ r ∈ t.rows, r.textual) :
    ∀ r ∈ (handle idEq t req up).2.table.rows, r.textual := by
  rcases handle_table idEq t req up with ht | ⟨body, n, p, hb, hr, hn, hp, ht⟩ |
    ⟨id, body, n, p, hb, hr, hn, hp, ht⟩ | ⟨id, _, ht⟩
  · rw [ht]; exact h
  · rw [ht]
    subst hb
    intro r hmem
    rcases List.mem_append.mp hmem with hmem | hmem
    · exact h r hmem
    · rw [List.mem_singleton] at hmem
      subst hmem
      exact ⟨text_of_truthy hreq.1 (rejects_eq_false hr).1 hn,
        text_of_truthy hreq.2 (rejects_eq_false hr).2 hp⟩
  · rw [ht]
    subst hb
    intro r hmem
    rcases List.mem_map.mp hmem with ⟨r0, hr0, rfl⟩
    unfold updateRow
    split
    · exact ⟨text_of_truthy hreq.1 (rejects_eq_false hr).1 hn,
        text_of_truthy hreq.2 (rejects_eq_false hr).2 hp⟩
    · exact h r0 hr0
  · rw [ht]
    exact fun r hmem => h r (List.mem_of_mem_filter hmem)

theorem run_preserves_WF (idEq : String → Nat → Bool) :
    ∀ (history : List (ApiRequest × Bool)) (t : Table), t.WF →
      (run idEq t history).1.WF ∧ t.autoIncrement ≤ (run idEq t history).1.autoIncrement ∧
      ∀ resp ∈ (run idEq t history).2, resp.status = 201 →
        ∃ (i : Nat) (n p : JsVal), resp = jsonResponse 201 (createdBody i n p) ∧
          t.autoIncrement ≤ i ∧ i < (run idEq t history).1.autoIncrement
  | [], t, h => ⟨h, le_refl _, by simp [run]⟩
  | (req, up) :: rest, t, h => by
    have hstep := handle_preserves_WF idEq t req up h
    have ih := run_preserves_WF idEq rest (handle idEq t req up).2.table hstep.1
    rw [run_cons]
    refine ⟨ih.1, le_trans hstep.2 ih.2.1, ?_⟩
    intro resp hmem hst
    rcases List.mem_append.mp hmem with hmem | hmem
    · obtain ⟨body, hresp, hnext⟩ := handle_created idEq t req up resp hmem hst
      refine ⟨t.autoIncrement, _, _, hresp, le_refl _, ?_⟩
      exact lt_of_lt_of_le (by rw [hnext]; exact Nat.lt_succ_self _) ih.2.1
    · obtain ⟨i, n, p, hresp, hlo, hhi⟩ := ih.2.2 resp hmem hst
      exact ⟨i, n, p, hresp, le_trans hstep.2 hlo, hhi⟩

theorem run_preserves_textual (idEq : String → Nat → Bool) :
    ∀ (history : List (ApiRequest × Bool)) (t : Table),
      (∀ q ∈ history, q.1.textual) → (∀ r ∈ t.rows, r.textual) →
      ∀ r ∈ (run idEq t history).1.rows, r.textual
  | [], _, _, h => h
  | (req, up) :: rest, t, hq, h => by
    rw [run_cons]
    apply run_preserves_textual idEq rest
    · exact fun q hmem => hq q (List.mem_cons_of_mem _ hmem)
    · exact handle_preserves_textual idEq t req up (hq (req, up) (List.mem_cons_self _ _)) h

theorem empty_WF : Table.empty.WF := by
  simp [Table.WF, Table.empty]

theorem createdBody_id_inj {i j : Nat} {n p n2 p2 : JsVal}
    (h : createdBody i n p = createdBody j n2 p2) : i = j := by
  simp [createdBody, natVal] at h
  exact h.1

/-- From the empty table, when `name` and `patientNumber` of every request body are
strings whenever they pass the presence check, every persisted `name` and
`patient_number` is a non-empty text: an empty one can only come from a value that is not
a string. -/
theorem textual_requests_persist_text (idEq : String → Nat → Bool)
    (history : List (ApiRequest × Bool)) (hq : ∀ q ∈ history, q.1.textual) :
    ∀ r ∈ (tableAfter idEq Table.empty history).rows, r.textual :=
  run_preserves_textual idEq history Table.empty hq (by simp [Table.empty])

/-! ## Contracts along a sequence of requests -/

/-- C2: for every table whose ids lie below its counter, every sequence of API requests
served on it, and then a body whose `name` and `patientNumber` are non-empty strings, the
store executing the statement: the create handler answers 201 with the body
`id, name, patient_number` where `id` is the id the store generated; the list served
afterwards is the list served before plus the new row at its end; the id is in use by no
row and is greater than every id a create answered earlier. -/
theorem create_appends_fresh_row (idEq : String → Nat → Bool) (start : Table)
    (history : List (ApiRequest × Bool)) (body : Body) (name patientNumber : String)
    (hstart : start.WF)
    (hn : body.prop "name" = .str name) (hp : body.prop "patientNumber" = .str patientNumber)
    (hne : name ≠ "") (hpe : patientNumber ≠ "") :
    handle idEq (tableAfter idEq start history) (.create (some body)) true =
        (.ok (), { table :=
                     { rows := (tableAfter idEq start history).rows ++
                         [{ id := (tableAfter idEq start history).autoIncrement,
                            name := name, patient_number := patientNumber }],
                       autoIncrement := (tableAfter idEq start history).autoIncrement + 1 },
                   storeUp := true,
                   issued := [.insert (.str name) (.str patientNumber)],
                   sent := [jsonResponse 201 (createdBody
                     (tableAfter idEq start history).autoIncrement
                     (.str name) (.str patientNumber))] })
      ∧ (handle idEq (tableAfter idEq start history) .list true).2.sent =
          [jsonResponse 200 (patientsBody (orderById (tableAfter idEq start history).rows))]
      ∧ (handle idEq
            (handle idEq (tableAfter idEq start history) (.create (some body)) true).2.table
            .list true).2.sent =
          [jsonResponse 200 (patientsBody (orderById (tableAfter idEq start history).rows ++
            [{ id := (tableAfter idEq start history).autoIncrement,
               name := name, patient_number := patientNumber }]))]
      ∧ (∀ r ∈ (tableAfter idEq start history).rows,
          r.id < (tableAfter idEq start history).autoIncrement)
      ∧ (∀ resp ∈ responsesOf idEq start history, ∀ (i : Nat) (n p : JsVal),
          resp = jsonResponse 201 (createdBody i n p) →
            i < (tableAfter idEq start history).autoIncrement) := by
  have hrej : rejects body = false := by
    simp [rejects, hn, hp, truthy_str hne, truthy_str hpe]
  have hinv := run_preserves_WF idEq history start hstart
  have hwf : (tableAfter idEq start history).WF := hinv.1
  have hrun : handle idEq (tableAfter idEq start history) (.create (some body)) true =
        (.ok (), { table :=
                     { rows := (tableAfter idEq start history).rows ++
                         [{ id := (tableAfter idEq start history).autoIncrement,
                            name := name, patient_number := patientNumber }],
                       autoIncrement := (tableAfter idEq start history).autoIncrement + 1 },
                   storeUp := true,
                   issued := [.insert (.str name) (.str patientNumber)],
                   sent := [jsonResponse 201 (createdBody
                     (tableAfter idEq start history).autoIncrement
                     (.str name) (.str patientNumber))] }) := by
    simp [handle, serve, withBody, postPatients_eq, hrej, hn, hp, World.attempt, Table.exec,
      boundColumn_str]
  refine ⟨hrun, list_sent idEq _, ?_, hwf, ?_⟩
  · rw [hrun, list_sent]
    simp only
    rw [orderById_append_last _ _ (fun r hr => Nat.le_of_lt (hwf r hr))]
  · intro resp hmem i n p hresp
    have hst : resp.status = 201 := by rw [hresp]; rfl
    obtain ⟨j, n2, p2, hresp2, _, hlt⟩ := hinv.2.2 resp hmem hst
    have hij : i = j := by
      rw [hresp] at hresp2
      have hb : createdBody i n p = createdBody j n2 p2 := by
        simpa [jsonResponse] using hresp2
      exact createdBody_id_inj hb
    rw [hij]
    exact hlt

/-- Witness for C2: the create scenario on the empty table answers 201 with id 1. -/
theorem create_appends_fresh_row_witness :
    (Table.empty.WF ∧ janeBody.prop "name" = .str "Jane Doe"
      ∧ janeBody.prop "patientNumber" = .str "P-1001" ∧ "Jane Doe" ≠ "" ∧ "P-1001" ≠ "")
    ∧ (handle decimalIdEq (tableAfter decimalIdEq Table.empty [])
          (.create (some janeBody)) true).2.sent =
        [jsonResponse 201 (createdBody 1 (.str "Jane Doe") (.str "P-1001"))] := by
  refine ⟨⟨empty_WF, rfl, rfl, by decide, by decide⟩, ?_⟩
  have h := (create_appends_fresh_row decimalIdEq Table.empty [] janeBody "Jane Doe" "P-1001"
    empty_WF rfl rfl (by decide) (by decide)).1
  rw [h]
  rfl

/-- C7, where the code departs from it: on the empty table, the create request whose
`name` is the array holding the empty string passes the presence check of line 123, since
an array is truthy; the statement of lines 128-131 is issued with the array bound to
`name`, the driver writes it as the empty string literal, and the store executes the
statement. The handler answers 201 and the persisted patient has the empty `name`, which
the list served afterwards shows. -/
theorem array_name_persists_empty_name :
    handle decimalIdEq Table.empty (.create (some arrayNameBody)) true =
        (.ok (), { table := { rows := [{ id := 1, name := "", patient_number := "P-1001" }],
                              autoIncrement := 2 },
                   storeUp := true,
                   issued := [.insert (.arr [.str ""]) (.str "P-1001")],
                   sent := [jsonResponse 201
                     (createdBody 1 (.arr [.str ""]) (.str "P-1001"))] })
    ∧ (tableAfter decimalIdEq Table.empty [(.create (some arrayNameBody), true)]).rows =
        [{ id := 1, name := "", patient_number := "P-1001" }]
    ∧ (handle decimalIdEq
          (tableAfter decimalIdEq Table.empty [(.create (some arrayNameBody), true)])
          .list true).2.sent =
        [jsonResponse 200 (.obj [("patients", .arr [.obj [("id", natVal 1),
          ("name", .str ""), ("patient_number", .str "P-1001")]])])] :=
  ⟨rfl, rfl, rfl⟩

/-! ## Start-up, case by case -/

theorem emit_eq (e : Event) (p : Process) :
    emit e p = (.ok (), { p with log := p.log ++ [e] }) := rfl

theorem envTruthy_of_unsetOrEmpty {v : Option String} (h : unsetOrEmpty v) :
    envTruthy v = false := by
  rcases h with h | h <;> subst h <;> simp [envTruthy]

theorem unsetOrEmpty_of_not_envTruthy {v : Option String} (h : envTruthy v = false) :
    unsetOrEmpty v := by
  cases v with
  | none => exact Or.inl rfl
  | some s =>
    right
    have : s = "" := by simpa [envTruthy] using h
    rw [this]

theorem getDbCredentials_eq (env : Env) (out : Outside) (p : Process) :
    getDbCredentials env out p =
      (match out.send with
        | .error e => .error e
        | .ok response =>
          if envTruthy response.SecretString then
            match out.JSON_parse (response.SecretString.getD "") with
            | .error e => .error e
            | .ok secret =>
              match secret.getProp "username", secret.getProp "password" with
              | .ok u, .ok pw => .ok { user := u, password := pw }
              | .error e, _ => .error e
              | .ok _, .error e => .error e
          else
            .error (.error "Missing SecretString in Secrets Manager response."),
       { p with log := p.log ++ [.sendGetSecretValue env.DB_SECRET_ARN] }) := by
  unfold getDbCredentials tryCatchEff
  simp only [bind, Eff.bind, emit_eq]
  cases hsend : out.send with
  | error e => simp [liftOutcome, throwEff]
  | ok response =>
    by_cases hs : envTruthy response.SecretString = true
    · simp only [liftOutcome, hs]
      cases hparse : out.JSON_parse (response.SecretString.getD "") with
      | error e => simp [liftOutcome, throwEff, bind, Eff.bind, hparse]
      | ok secret =>
        cases hu : secret.getProp "username" with
        | error e => simp [liftOutcome, throwEff, bind, Eff.bind, hparse, hu]
        | ok u =>
          cases hpw : secret.getProp "password" with
          | error e => simp [liftOutcome, throwEff, bind, Eff.bind, hparse, hu, hpw]
          | ok pw => simp [liftOutcome, throwEff, bind, Eff.bind, hparse, hu, hpw, pure]
    · simp [liftOutcome, hs, throwEff]

theorem getDbCredentials_outcome (env : Env) (out : Outside) (p : Process) :
    (getDbCredentials env out p).1 = (getDbCredentials env out freshProcess).1 := by
  rw [getDbCredentials_eq, getDbCredentials_eq]

theorem initializeDbPool_eq (env : Env) (out : Outside) :
    initializeDbPool env out freshProcess =
      match (getDbCredentials env out freshProcess).1 with
      | .error e =>
        (.error e, { log := [.sendGetSecretValue env.DB_SECRET_ARN], connection := false })
      | .ok c =>
        match env.DB_HOST with
        | none =>
          (.error .typeError,
           { log := [.sendGetSecretValue env.DB_SECRET_ARN], connection := false })
        | some d =>
          if out.getConnection then
            if out.createTable then
              (.ok (),
               { log := [.sendGetSecretValue env.DB_SECRET_ARN,
                         .createPool (poolOptions env (parseDbHost d).1 (parseDbHost d).2 c),
                         .getConnection, .createTableQuery, .release],
                 connection := true })
            else
              (.error (.rejected "connection.query"),
               { log := [.sendGetSecretValue env.DB_SECRET_ARN,
                         .createPool (poolOptions env (parseDbHost d).1 (parseDbHost d).2 c),
                         .getConnection, .createTableQuery, .release],
                 connection := true })
          else
            (.error (.rejected "dbPool.getConnection"),
             { log := [.sendGetSecretValue env.DB_SECRET_ARN,
                       .createPool (poolOptions env (parseDbHost d).1 (parseDbHost d).2 c),
                       .getConnection],
               connection := false }) := by
  have hlog : (getDbCredentials env out freshProcess).2 =
      { log := [.sendGetSecretValue env.DB_SECRET_ARN], connection := false } := by
    rw [getDbCredentials_eq]; rfl
  unfold initializeDbPool
  simp only [bind, Eff.bind]
  rcases hc : getDbCredentials env out freshProcess with ⟨r, p1⟩
  rw [hc] at hlog
  simp only at hlog
  subst hlog
  cases r with
  | error e => simp
  | ok c =>
    cases hd : env.DB_HOST with
    | none => simp [liftOutcome]
    | some d =>
      cases hg : out.getConnection <;> cases ht : out.createTable <;>
        simp [liftOutcome, emit_eq, tryFinallyEff, tryCatchEff, pool_getConnection,
          connection_query, hg, ht, throwEff, bind, Eff.bind]

theorem bootLog_of_missing (env : Env) (out : Outside)
    (h : unsetOrEmpty env.DB_HOST ∨ unsetOrEmpty env.DB_NAME ∨
      unsetOrEmpty env.DB_SECRET_ARN ∨ unsetOrEmpty env.AWS_REGION) :
    bootLog env out = [.exit 1] := by
  have hcond : (!envTruthy env.DB_HOST || !envTruthy env.DB_NAME
      || !envTruthy env.DB_SECRET_ARN || !envTruthy env.AWS_REGION) = true := by
    rcases h with h | h | h | h <;> simp [envTruthy_of_unsetOrEmpty h]
  unfold bootLog serverMain
  rw [if_pos hcond]
  rfl

theorem bootLog_of_present (env : Env) (out : Outside) (h : requiredPresent env) :
    bootLog env out =
      match (initializeDbPool env out freshProcess).1 with
      | .ok _ => (initializeDbPool env out freshProcess).2.log ++ [.listen (listenPort env)]
      | .error _ => (initializeDbPool env out freshProcess).2.log ++ [.exit 1] := by
  obtain ⟨h1, h2, h3, h4⟩ := h
  have hcond : (!envTruthy env.DB_HOST || !envTruthy env.DB_NAME
      || !envTruthy env.DB_SECRET_ARN || !envTruthy env.AWS_REGION) = false := by
    simp [h1, h2, h3, h4]
  unfold bootLog serverMain
  rw [hcond]
  simp only [Bool.false_eq_true, if_false]
  unfold startServer tryCatchEff
  simp only [bind, Eff.bind]
  show _ = (match (initializeDbPool env out freshProcess).1 with
      | .ok _ => (initializeDbPool env out freshProcess).2.log ++ [.listen (listenPort env)]
      | .error _ => (initializeDbPool env out freshProcess).2.log ++ [.exit 1])
  rcases hi : initializeDbPool env out freshProcess with ⟨r, p1⟩
  have hi2 : initializeDbPool env out { log := [], connection := false } = (r, p1) := hi
  cases r with
  | error e => simp [hi2, emit_eq]
  | ok u => simp [hi2, emit_eq]

/-! ## Start-up contracts -/

/-- C8: when one of `DB_HOST`, `DB_NAME`, `DB_SECRET_ARN`, `AWS_REGION` is unset or empty,
the only step the process takes is `exit` with code 1: no credentials are fetched, no pool
is created and the server does not listen. When the four are present, `APP_PORT` is
absent and the initialisation succeeds, the process does not exit and listens on 5005. -/
theorem missing_config_exits_first (env : Env) (out : Outside) :
    (unsetOrEmpty env.DB_HOST ∨ unsetOrEmpty env.DB_NAME ∨
        unsetOrEmpty env.DB_SECRET_ARN ∨ unsetOrEmpty env.AWS_REGION →
      bootLog env out = [.exit 1])
    ∧ (requiredPresent env → env.APP_PORT = none →
        (initializeDbPool env out freshProcess).1 = .ok () →
      bootLog env out =
        (initializeDbPool env out freshProcess).2.log ++ [.listen (natVal 5005)]) := by
  constructor
  · exact bootLog_of_missing env out
  · intro hreq hport hinit
    rw [bootLog_of_present env out hreq, hinit]
    simp [listenPort, hport, envTruthy]

/-- Witness for C8: with `DB_NAME` empty the process only exits; with the example
environment, which has no `APP_PORT`, and an accepting outside it listens on 5005. -/
theorem missing_config_exits_first_witness :
    bootLog { exampleEnv with DB_NAME := some "" } emptySecretOutside = [.exit 1]
    ∧ bootLog exampleEnv emptySecretOutside =
        (initializeDbPool exampleEnv emptySecretOutside freshProcess).2.log ++
          [.listen (natVal 5005)] :=
  ⟨(missing_config_exits_first { exampleEnv with DB_NAME := some "" } emptySecretOutside).1
      (Or.inr (Or.inl (Or.inr rfl))),
   (missing_config_exits_first exampleEnv emptySecretOutside).2
      ⟨by decide, by decide, by decide, by decide⟩ rfl rfl⟩

/-- Counterexample to C9: the secret is the empty JSON object, which lacks `username` and
`password`; `getDbCredentials` does not fail, it returns the pair of two `undefined`, and
with the pool and the store accepting the process goes on to listen and never exits. -/
theorem credentials_without_fields_are_returned :
    (getDbCredentials exampleEnv emptySecretOutside freshProcess).1 =
        .ok { user := .undefined, password := .undefined }
    ∧ bootLog exampleEnv emptySecretOutside =
        [.sendGetSecretValue (some "arn:aws:secretsmanager:db"),
         .createPool (poolOptions exampleEnv "db.internal" (.finite 3306)
           { user := .undefined, password := .undefined }),
         .getConnection, .createTableQuery, .release, .listen (natVal 5005)] := by
  constructor
  · rfl
  · rfl

/-- C9 as amended: `getDbCredentials` returns a pair only when the secret store answered
with a non-empty `SecretString` that `JSON.parse` accepts, and the pair holds what
reading `username` and `password` off the parsed secret gives; it fails when the
`SecretString` is absent or empty and when `JSON.parse` rejects it. A secret that is a
JSON object never makes it fail: absent fields come back as `undefined`. Whenever it
fails, with the required configuration present, the process fetches, exits with code 1
and does nothing else. -/
theorem credentials_come_from_secret (env : Env) (out : Outside) :
    (∀ c : Credentials, (getDbCredentials env out freshProcess).1 = .ok c →
        ∃ (s : String) (secret : JsVal),
          out.send = .ok { SecretString := some s } ∧ s ≠ "" ∧
          out.JSON_parse s = .ok secret ∧
          secret.getProp "username" = .ok c.user ∧
          secret.getProp "password" = .ok c.password)
    ∧ (∀ response : SecretResponse, out.send = .ok response →
        unsetOrEmpty response.SecretString →
        ∃ e : JsError, (getDbCredentials env out freshProcess).1 = .error e)
    ∧ (∀ (s : String) (e : JsError), out.send = .ok { SecretString := some s } →
        out.JSON_parse s = .error e →
        ∃ e2 : JsError, (getDbCredentials env out freshProcess).1 = .error e2)
    ∧ (∀ (s : String) (fields : List (String × JsVal)),
        out.send = .ok { SecretString := some s } → s ≠ "" →
        out.JSON_parse s = .ok (.obj fields) →
        (getDbCredentials env out freshProcess).1 =
          .ok { user := lookupProp "username" fields,
                password := lookupProp "password" fields })
    ∧ (∀ e : JsError, (getDbCredentials env out freshProcess).1 = .error e →
        requiredPresent env →
        bootLog env out = [.sendGetSecretValue env.DB_SECRET_ARN, .exit 1]) := by
  refine ⟨?_, ?_, ?_, ?_, ?_⟩
  · intro c hc
    rw [getDbCredentials_eq] at hc
    simp only at hc
    cases hsend : out.send with
    | error e => rw [hsend] at hc; simp at hc
    | ok response =>
      rw [hsend] at hc
      simp only at hc
      by_cases hs : envTruthy response.SecretString = true
      · rw [if_pos hs] at hc
        obtain ⟨secretString⟩ := response
        cases secretString with
        | none => simp [envTruthy] at hs
        | some s =>
          have hne : s ≠ "" := by simpa [envTruthy] using hs
          simp only [Option.getD_some] at hc
          cases hparse : out.JSON_parse s with
          | error e => rw [hparse] at hc; simp at hc
          | ok secret =>
            rw [hparse] at hc
            simp only at hc
            cases hu : secret.getProp "username" with
            | error e => rw [hu] at hc; simp at hc
            | ok u =>
              cases hpw : secret.getProp "password" with
              | error e => rw [hu, hpw] at hc; simp at hc
              | ok pw =>
                rw [hu, hpw] at hc
                simp only [Except.ok.injEq] at hc
                subst hc
                exact ⟨s, secret, rfl, hne, hparse, hu, hpw⟩
      · rw [if_neg hs] at hc
        simp at hc
  · intro response hsend hmissing
    rw [getDbCredentials_eq, hsend]
    simp only [envTruthy_of_unsetOrEmpty hmissing]
    exact ⟨_, rfl⟩
  · intro s e hsend hparse
    rw [getDbCredentials_eq, hsend]
    simp only [Option.getD_some, hparse]
    by_cases hs : envTruthy (some s) = true
    · rw [if_pos hs]; exact ⟨_, rfl⟩
    · rw [if_neg hs]; exact ⟨_, rfl⟩
  · intro s fields hsend hne hparse
    have hs : envTruthy (some s) = true := by simp [envTruthy, hne]
    rw [getDbCredentials_eq, hsend]
    simp only [Option.getD_some, hparse, hs, if_true, JsVal.getProp]
  · intro e he hreq
    rw [bootLog_of_present env out hreq, initializeDbPool_eq, he]
    rfl

/-- Witness for C9 as amended: with no `SecretString` in the answer `getDbCredentials`
fails and the process fetches, exits with code 1 and does nothing else. -/
theorem credentials_come_from_secret_witness :
    (getDbCredentials exampleEnv noSecretOutside freshProcess).1 =
        .error (.error "Missing SecretString in Secrets Manager response.")
    ∧ requiredPresent exampleEnv
    ∧ bootLog exampleEnv noSecretOutside =
        [.sendGetSecretValue exampleEnv.DB_SECRET_ARN, .exit 1] :=
  ⟨rfl, ⟨by decide, by decide, by decide, by decide⟩,
   (credentials_come_from_secret exampleEnv noSecretOutside).2.2.2.2
     (.error "Missing SecretString in Secrets Manager response.") rfl
     ⟨by decide, by decide, by decide, by decide⟩⟩

/-! ## `parseInt` on decimal numerals and the split at the colon -/

theorem splitChars_of_not_mem (sep : Char) :
    ∀ l : List Char, sep ∉ l → splitChars sep l = [l]
  | [], _ => rfl
  | c :: cs, h => by
    have hc : c ≠ sep := fun e => h (by simp [e])
    have hcs : sep ∉ cs := fun e => h (List.mem_cons_of_mem _ e)
    simp [splitChars, hc, splitChars_of_not_mem sep cs hcs]

theorem splitChars_append (sep : Char) (p : List Char) :
    ∀ h : List Char, sep ∉ h → splitChars sep (h ++ sep :: p) = h :: splitChars sep p
  | [], _ => by simp [splitChars]
  | c :: cs, hh => by
    have hc : c ≠ sep := fun e => hh (by simp [e])
    have hcs : sep ∉ cs := fun e => hh (List.mem_cons_of_mem _ e)
    simp [splitChars, hc, splitChars_append sep p cs hcs]

theorem digit_toNat {c : Char} (h : '0'.toNat ≤ c.toNat ∧ c.toNat ≤ '9'.toNat) :
    48 ≤ c.toNat ∧ c.toNat ≤ 57 := by
  simpa using h

theorem digit_ne_of_toNat {c d : Char} (h : c.toNat ≠ d.toNat) : c ≠ d :=
  fun e => h (by rw [e])

theorem colon_not_mem_decimal {p : List Char} (hp : isDecimal p) : ':' ∉ p := by
  intro hmem
  have := digit_toNat (hp _ hmem)
  simp at this

theorem digitValue_digit {c : Char} (h : '0'.toNat ≤ c.toNat ∧ c.toNat ≤ '9'.toNat) :
    digitValue c = some (c.toNat - '0'.toNat) := by
  unfold digitValue
  rw [if_pos h]

theorem isRadixDigit_digit {c : Char} (h : '0'.toNat ≤ c.toNat ∧ c.toNat ≤ '9'.toNat) :
    isRadixDigit 10 c = true := by
  have h2 := digit_toNat h
  simp [isRadixDigit, digitValue_digit h]
  omega

theorem isStrWhiteSpace_digit {c : Char} (h : '0'.toNat ≤ c.toNat ∧ c.toNat ≤ '9'.toNat) :
    isStrWhiteSpace c = false := by
  have h2 := digit_toNat h
  simp [isStrWhiteSpace]
  omega

theorem digitsValue_decimal_aux :
    ∀ (p : List Char) (acc : Nat), isDecimal p →
      p.foldl (fun acc c => 10 * acc + (digitValue c).getD 0) acc =
        p.foldl (fun acc c => 10 * acc + (c.toNat - '0'.toNat)) acc
  | [], _, _ => rfl
  | c :: cs, acc, hp => by
    have hc := hp c (List.mem_cons_self _ _)
    have hcs : isDecimal cs := fun d hd => hp d (List.mem_cons_of_mem _ hd)
    simp only [List.foldl_cons, digitValue_digit hc, Option.getD_some]
    exact digitsValue_decimal_aux cs _ hcs

theorem digitsValue_decimal {p : List Char} (hp : isDecimal p) :
    digitsValue 10 p = decimalValue p :=
  digitsValue_decimal_aux p 0 hp

theorem takeWhile_decimal : ∀ {p : List Char}, isDecimal p → p.takeWhile (isRadixDigit 10) = p
  | [], _ => rfl
  | c :: cs, hp => by
    have hc := hp c (List.mem_cons_self _ _)
    have hcs : isDecimal cs := fun d hd => hp d (List.mem_cons_of_mem _ hd)
    simp [List.takeWhile, isRadixDigit_digit hc, takeWhile_decimal hcs]

theorem parseInt_decimal {p : List Char} (hne : p ≠ []) (hp : isDecimal p) :
    parseInt p = toDouble false (decimalValue p) := by
  cases p with
  | nil => exact absurd rfl hne
  | cons c cs =>
    have hc := hp c (List.mem_cons_self _ _)
    have hc2 := digit_toNat hc
    have hws : (c :: cs).dropWhile isStrWhiteSpace = c :: cs := by
      simp [List.dropWhile, isStrWhiteSpace_digit hc]
    have hminus : c ≠ '-' := digit_ne_of_toNat (by simp; omega)
    have hplus : c ≠ '+' := digit_ne_of_toNat (by simp; omega)
    have hhex : ¬ ((c :: cs).take 2 = ['0', 'x'] ∨ (c :: cs).take 2 = ['0', 'X']) := by
      cases cs with
      | nil => simp
      | cons d ds =>
        have hd := digit_toNat (hp d (by simp))
        have hx : d ≠ 'x' := digit_ne_of_toNat (by simp; omega)
        have hX : d ≠ 'X' := digit_ne_of_toNat (by simp; omega)
        simp [hx, hX]
    unfold parseInt
    simp only [hws, List.head?_cons, Option.some.injEq, hminus, hplus, or_self, if_false, hhex,
      decide_False, Bool.false_eq_true, takeWhile_decimal hp, digitsValue_decimal hp]
    simp

theorem excessBits_small (fuel n : Nat) (h : n < 2 ^ 53) : excessBits fuel n = 0 := by
  cases fuel with
  | zero => rfl
  | succ k =>
    show (if n < 2 ^ 53 then 0 else 1 + excessBits k (n / 2)) = 0
    rw [if_pos h]

theorem two_pow_lt_two_pow {a b : Nat} (h : a < b) : (2 : Nat) ^ a < 2 ^ b :=
  Nat.pow_lt_pow_right (show 1 < 2 by decide) h

theorem pow53_lt : (2 : Nat) ^ 53 < 2 ^ 1024 :=
  two_pow_lt_two_pow (show 53 < 1024 by decide)

theorem toDouble_exact (n : Nat) (h : n ≤ 2 ^ 53) : toDouble false n = .finite (n : ℚ) := by
  rcases Nat.lt_or_eq_of_le h with hlt | heq
  · have hbig : ¬ 2 ^ 1024 ≤ n := by
      have := pow53_lt
      omega
    unfold toDouble
    simp only [excessBits_small n n hlt, pow_zero, Nat.div_one, Nat.mod_one, mul_zero, mul_one]
    have hm : (if 1 < 0 ∨ 0 = 1 ∧ n % 2 = 1 then n + 1 else n) = n := if_neg (by omega)
    rw [hm, if_neg hbig]
    simp
  · subst heq
    have he : excessBits (2 ^ 53) (2 ^ 53) = 1 := by decide
    have hbig : ¬ 2 ^ 1024 ≤ 2 ^ 52 * 2 ^ 1 := by
      have := pow53_lt
      omega
    have hq : 2 ^ 53 / 2 ^ 1 = 2 ^ 52 := by norm_num
    have hr : 2 ^ 53 % 2 ^ 1 = 0 := by norm_num
    unfold toDouble
    simp only [he, hq, hr]
    have hm : (if 2 ^ 1 < 2 * 0 ∨ 2 * 0 = 2 ^ 1 ∧ 2 ^ 52 % 2 = 1 then 2 ^ 52 + 1 else 2 ^ 52)
        = 2 ^ 52 := if_neg (by norm_num)
    rw [hm, if_neg hbig]
    norm_num

theorem missing_of_not_present {env : Env} (h : ¬ requiredPresent env) :
    unsetOrEmpty env.DB_HOST ∨ unsetOrEmpty env.DB_NAME ∨
      unsetOrEmpty env.DB_SECRET_ARN ∨ unsetOrEmpty env.AWS_REGION := by
  cases h1 : envTruthy env.DB_HOST
  · exact Or.inl (unsetOrEmpty_of_not_envTruthy h1)
  · cases h2 : envTruthy env.DB_NAME
    · exact Or.inr (Or.inl (unsetOrEmpty_of_not_envTruthy h2))
    · cases h3 : envTruthy env.DB_SECRET_ARN
      · exact Or.inr (Or.inr (Or.inl (unsetOrEmpty_of_not_envTruthy h3)))
      · cases h4 : envTruthy env.AWS_REGION
        · exact Or.inr (Or.inr (Or.inr (unsetOrEmpty_of_not_envTruthy h4)))
        · exact absurd ⟨h1, h2, h3, h4⟩ h

theorem createPool_in_bootLog (env : Env) (out : Outside) (d : String) (cfg : PoolConfig)
    (hd : env.DB_HOST = some d) (hmem : Event.createPool cfg ∈ bootLog env out) :
    cfg.host = (parseDbHost d).1 ∧ cfg.port = (parseDbHost d).2 := by
  by_cases hreq : requiredPresent env
  · rw [bootLog_of_present env out hreq, initializeDbPool_eq, hd] at hmem
    cases hc : (getDbCredentials env out freshProcess).1 with
    | error e => rw [hc] at hmem; simp at hmem
    | ok c =>
      rw [hc] at hmem
      cases hg : out.getConnection <;> cases ht : out.createTable <;>
        simp [hg, ht] at hmem <;> subst hmem <;> exact ⟨rfl, rfl⟩
  · rw [bootLog_of_missing env out (missing_of_not_present hreq)] at hmem
    simp at hmem

theorem parseDbHost_with_port (h p : List Char) (hh : ':' ∉ h) (hne : p ≠ [])
    (hp : isDecimal p) :
    parseDbHost (String.mk (h ++ ':' :: p)) = (String.mk h, toDouble false (decimalValue p)) := by
  unfold parseDbHost
  simp only [splitChars_append ':' p h hh,
    splitChars_of_not_mem ':' p (colon_not_mem_decimal hp), List.headD_cons, List.tail_cons,
    List.head?_cons, ne_eq, hne, not_false_eq_true, if_true, parseInt_decimal hne hp]

theorem parseDbHost_without_port (h : List Char) (hh : ':' ∉ h) :
    parseDbHost (String.mk h) = (String.mk h, .finite 3306) := by
  unfold parseDbHost
  simp only [splitChars_of_not_mem ':' h hh, List.headD_cons, List.tail_cons, List.head?_nil]

theorem parseDbHost_empty_port (h : List Char) (hh : ':' ∉ h) :
    parseDbHost (String.mk (h ++ [':'])) = (String.mk h, .finite 3306) := by
  unfold parseDbHost
  simp [splitChars_append ':' [] h hh, splitChars]

/-! ## The `DB_HOST` contract -/

/-- Counterexample to C10: for `DB_HOST = "db:9007199254740993"` the port after the colon
is a decimal numeral of value 2^53 + 1, and the pool's port is 9007199254740992, the
nearest double, not the integer value of the numeral. -/
theorem large_port_is_rounded :
    parseDbHost "db:9007199254740993" = ("db", .finite 9007199254740992)
    ∧ isDecimal "9007199254740993".data
    ∧ decimalValue "9007199254740993".data = 9007199254740993
    ∧ JsNumber.finite ((decimalValue "9007199254740993".data : Nat) : ℚ) ≠
        .finite 9007199254740992 := by
  have hv : decimalValue "9007199254740993".data = 9007199254740993 := by decide
  have hd : isDecimal "9007199254740993".data := by
    unfold isDecimal
    decide
  refine ⟨?_, hd, hv, ?_⟩
  · have h := parseDbHost_with_port "db".data "9007199254740993".data (by decide) (by decide) hd
    have he : excessBits 9007199254740993 9007199254740993 = 1 := by decide
    have hbig : ¬ (2 : Nat) ^ 1024 ≤ 9007199254740992 := by
      have := pow53_lt
      omega
    have ht : toDouble false 9007199254740993 = .finite 9007199254740992 := by
      unfold toDouble
      simp only [he]
      norm_num
    rw [hv, ht] at h
    exact h
  · rw [hv]
    intro h
    injection h with h2
    norm_num at h2

/-- C10 as amended: for `DB_HOST` of the form `h:p` with no colon in `h` and `p` a
non-empty decimal numeral, the host is `h` and the port is the double nearest to the
value of `p`, which is that value itself whenever it is at most 2^53; for `DB_HOST`
without a colon, or with nothing after its colon, the host is the text before the colon
and the port is 3306. The pool is created with exactly this host and port. -/
theorem db_host_gives_host_and_port (h p : List Char) (hh : ':' ∉ h) :
    (p ≠ [] → isDecimal p →
        parseDbHost (String.mk (h ++ ':' :: p)) =
          (String.mk h, toDouble false (decimalValue p))
        ∧ (decimalValue p ≤ 2 ^ 53 →
            parseDbHost (String.mk (h ++ ':' :: p)) =
              (String.mk h, .finite ((decimalValue p : Nat) : ℚ))))
    ∧ parseDbHost (String.mk h) = (String.mk h, .finite 3306)
    ∧ parseDbHost (String.mk (h ++ [':'])) = (String.mk h, .finite 3306)
    ∧ (∀ (env : Env) (out : Outside) (d : String) (cfg : PoolConfig),
        env.DB_HOST = some d → Event.createPool cfg ∈ bootLog env out →
        cfg.host = (parseDbHost d).1 ∧ cfg.port = (parseDbHost d).2) := by
  refine ⟨?_, parseDbHost_without_port h hh, parseDbHost_empty_port h hh, ?_⟩
  · intro hne hp
    refine ⟨parseDbHost_with_port h p hh hne hp, ?_⟩
    intro hle
    rw [parseDbHost_with_port h p hh hne hp, toDouble_exact _ hle]
  · intro env out d cfg hd hmem
    exact createPool_in_bootLog env out d cfg hd hmem

/-- Witness for C10 as amended: `db.local:3307` gives host `db.local` and port 3307. -/
theorem db_host_gives_host_and_port_witness :
    (':' ∉ "db.local".data ∧ "3307".data ≠ [] ∧ isDecimal "3307".data
      ∧ decimalValue "3307".data ≤ 2 ^ 53)
    ∧ parseDbHost (String.mk ("db.local".data ++ ':' :: "3307".data)) =
        (String.mk "db.local".data, .finite ((decimalValue "3307".data : Nat) : ℚ)) := by
  have hd : isDecimal "3307".data := by
    unfold isDecimal
    decide
  have hv : decimalValue "3307".data ≤ 2 ^ 53 := by decide
  exact ⟨⟨by decide, by decide, hd, hv⟩,
    ((db_host_gives_host_and_port "db.local".data "3307".data (by decide)).1
      (by decide) hd).2 hv⟩

/-! ## The scenarios of the update and delete contracts -/

/-- Witness for C4: on the table holding Jane Doe under id 1, `PUT /api/patients/1` with
Jane Roe, `P-2002` answers 200 and the row now carries the new values; on the empty table
`PUT /api/patients/999` answers 404. -/
theorem update_changes_matching_row_or_404_witness :
    (roeBody.prop "name" = .str "Jane Roe" ∧ roeBody.prop "patientNumber" = .str "P-2002"
      ∧ "Jane Roe" ≠ "" ∧ "P-2002" ≠ "")
    ∧ handle decimalIdEq janeTable (.update "1" (some roeBody)) true =
        (.ok (), { table := { rows := janeTable.rows.map
                                (updateRow decimalIdEq "Jane Roe" "P-2002" "1"),
                              autoIncrement := janeTable.autoIncrement },
                   storeUp := true,
                   issued := [.update (.str "Jane Roe") (.str "P-2002") "1"],
                   sent := [jsonResponse 200
                     (.obj [("message", .str "Patient updated successfully.")])] })
    ∧ handle decimalIdEq Table.empty (.update "999" (some roeBody)) true =
        (.ok (), { table := Table.empty, storeUp := true,
                   issued := [.update (.str "Jane Roe") (.str "P-2002") "999"],
                   sent := [jsonResponse 404 (errorBody "Patient not found.")] }) :=
  ⟨⟨rfl, rfl, by decide, by decide⟩,
   ((update_changes_matching_row_or_404 decimalIdEq janeTable "1" roeBody "Jane Roe" "P-2002"
      rfl rfl (by decide) (by decide)).1
      ⟨{ id := 1, name := "Jane Doe", patient_number := "P-1001" },
        List.mem_singleton.mpr rfl, by decide⟩).1,
   (update_changes_matching_row_or_404 decimalIdEq Table.empty "999" roeBody "Jane Roe"
      "P-2002" rfl rfl (by decide) (by decide)).2
      (by rintro ⟨r, hr, _⟩; simp [Table.empty] at hr)⟩

/-- Witness for C5: on the table holding only id 1, `DELETE /api/patients/1` answers 204
and the list served afterwards is empty; a second delete of the same id finds nothing and
answers 404. -/
theorem delete_removes_matching_row_or_404_witness :
    (handle decimalIdEq janeTable (.remove "1") true).2.sent = [{ status := 204, body := none }]
    ∧ (handle decimalIdEq (handle decimalIdEq janeTable (.remove "1") true).2.table
          .list true).2.sent = [jsonResponse 200 (patientsBody [])]
    ∧ (handle decimalIdEq Table.empty (.remove "1") true).2.sent =
        [jsonResponse 404 (errorBody "Patient not found.")] := by
  have hex : ∃ r ∈ janeTable.rows, decimalIdEq "1" r.id = true :=
    ⟨{ id := 1, name := "Jane Doe", patient_number := "P-1001" },
      List.mem_singleton.mpr rfl, by decide⟩
  have h1 := (delete_removes_matching_row_or_404 decimalIdEq janeTable "1").1 hex
  have h2 := (delete_removes_matching_row_or_404 decimalIdEq Table.empty "1").2
    (by rintro ⟨r, hr, _⟩; simp [Table.empty] at hr)
  refine ⟨?_, ?_, ?_⟩
  · rw [h1.1]
  · rw [h1.2.2]
    rfl
  · rw [h2]

end PtMgmt
